import Mathlib

/-!
# surrealstore: session persistence over SurrealDB

A shallow embedding of `surrealstore.go` and `cleanup.go`.

* Go values reached through pointers that the code may alias (`*sessions.Options`)
  live in an explicit heap; a pointer is an address.
* The database behind `store.DB`, the `securecookie` codecs, the wall clock and the
  random source are collaborators of the package. They appear as parameters: a
  database semantics `DBSem`, codec behaviours inside `Codec`, the readings of
  `time.Now()` as a function `clk` (reading number `i` of the call is `clk i`), and
  the freshly generated identifier as `fresh`.
* `Get` goes through the registry that `gorilla/sessions` attaches to the request;
  the registry is a parameter of `Get`.
* A run-time panic is an explicit outcome.
-/

namespace Surrealstore

/-! ## Time -/

/-- An instant (`time.Time`), in nanoseconds on the UTC time line. -/
abbrev Time := Int

/-- A `time.Duration`: a signed 64-bit count of nanoseconds. -/
abbrev Duration := Int

/-- Smallest `time.Duration`, `-1 << 63`. -/
def minDuration : Duration := -9223372036854775808

/-- Largest `time.Duration`, `1<<63 - 1`. -/
def maxDuration : Duration := 9223372036854775807

/-- Two's-complement reduction of an integer to 64 bits. -/
def wrap64 (x : Int) : Int :=
  (x + 9223372036854775808) % 18446744073709551616 - 9223372036854775808

/-- The constant `time.Second`. -/
def Second : Duration := 1000000000

/-- The Go expression `time.Second * time.Duration(maxAge)`: the conversion of the
`int` to `int64` followed by a wrapping 64-bit multiplication. -/
def secondsToDuration (maxAge : Int) : Duration :=
  wrap64 (Second * wrap64 maxAge)

/-- The method `Time.Add`, on an unbounded time line. -/
def timeAdd (t : Time) (d : Duration) : Time := t + d

/-- The method `Time.Sub`: the difference `t - u`, saturated to the range of
`time.Duration`. -/
def timeSub (t u : Time) : Duration :=
  if t - u < minDuration then minDuration
  else if maxDuration < t - u then maxDuration
  else t - u

/-! ## Errors and outcomes -/

/-- Values of Go's `error` that the package can see. -/
inductive Error where
  /-- The error of `securecookie` when no codecs were provided. -/
  | noCodecs
  /-- A `securecookie.MultiError`: every codec failed, one message per codec. -/
  | codec (msgs : List String)
  /-- Store: no record under the requested id. -/
  | notFound
  /-- Store: transport or query failure. -/
  | store (msg : String)
  /-- The error of the registry of `gorilla/sessions` for a name that is not a valid
  cookie name. -/
  | invalidName (name : String)
  deriving DecidableEq, Repr

/-- How a call ends: it returns a value, or the goroutine panics. -/
inductive Outcome (α : Type) where
  | ret (a : α)
  | panic
  deriving DecidableEq, Repr

/-! ## Session values -/

/-- A dynamically typed Go value (`interface{}`) as stored in `session.Values`. -/
inductive Val where
  | nil
  | time (t : Time)
  | int (n : Int)
  | str (s : String)
  | bool (b : Bool)
  | bytes (b : List Nat)
  deriving DecidableEq, Repr

/-- The type `map[interface{}]interface{}` of `session.Values`. -/
abbrev ValueMap := List (Val × Val)

/-- Map indexing `m[k]`: the value bound to `k`, or the zero value `nil` when no entry
exists. -/
def mapIndex (m : ValueMap) (k : Val) : Val :=
  match m.lookup k with
  | some v => v
  | none => Val.nil

/-! ## Options and the heap -/

/-- The struct `sessions.Options`. -/
structure Options where
  Path : String
  Domain : String
  MaxAge : Int
  Secure : Bool
  HttpOnly : Bool
  SameSite : Nat
  deriving DecidableEq, Repr

/-- The zero value `new(Options)` points to. -/
def Options.zero : Options :=
  { Path := "", Domain := "", MaxAge := 0, Secure := false, HttpOnly := false, SameSite := 0 }

/-- The `Options` objects of the program. A pointer `*sessions.Options` is an address,
a natural number; the addresses below `next` are allocated. -/
structure Heap where
  cells : Nat → Options
  next : Nat

/-- Dereference `*p`. -/
def Heap.get (h : Heap) (p : Nat) : Options := h.cells p

/-- Store through a pointer, `*p = o`. -/
def Heap.set (h : Heap) (p : Nat) (o : Options) : Heap :=
  { h with cells := fun q => if q = p then o else h.cells q }

/-- Allocate a new object holding `o`; returns the heap and the new address. -/
def Heap.alloc (h : Heap) (o : Options) : Heap × Nat :=
  ({ cells := fun q => if q = h.next then o else h.cells q, next := h.next + 1 }, h.next)

/-- The assignment `p.MaxAge = v`. -/
def Heap.setMaxAge (h : Heap) (p : Nat) (v : Int) : Heap :=
  h.set p { h.get p with MaxAge := v }

/-! ## Codecs -/

/-- What a codec serialises: the session id (a string) or the values of a session. -/
inductive Payload where
  | str (s : String)
  | values (v : ValueMap)
  deriving DecidableEq, Repr

/-- A `securecookie.Codec`. `secure` tells whether the dynamic type is
`*securecookie.SecureCookie`, the one whose limits `MaxAge` and `MaxLength` can be
set. The behaviour of `Encode` and `Decode` is a function of the current limits
(first `maxAge`, then `maxLength`), the cookie name and the input. -/
structure Codec where
  secure : Bool
  maxAge : Int
  maxLength : Int
  Encode : Int → Int → String → Payload → Except String String
  Decode : Int → Int → String → String → Except String Payload

/-- The loop of `securecookie.EncodeMulti`: the first codec that encodes wins. -/
def encodeLoop (name : String) (value : Payload) :
    List Codec → List String → Except Error String
  | [], errors => Except.error (Error.codec errors)
  | c :: cs, errors =>
    match c.Encode c.maxAge c.maxLength name value with
    | Except.ok encoded => Except.ok encoded
    | Except.error e => encodeLoop name value cs (errors ++ [e])

/-- The function `securecookie.EncodeMulti`. -/
def EncodeMulti (name : String) (value : Payload) (codecs : List Codec) :
    Except Error String :=
  match codecs with
  | [] => Except.error Error.noCodecs
  | _ :: _ => encodeLoop name value codecs []

/-- Destination `&session.ID`: only a string can be stored. -/
def asString : Payload → Option String
  | Payload.str s => some s
  | Payload.values _ => none

/-- Destination `&session.Values`: only a map can be stored. -/
def asValues : Payload → Option ValueMap
  | Payload.values v => some v
  | Payload.str _ => none

/-- The loop of `securecookie.DecodeMulti` for a destination `dst`: the first codec
that authenticates the token and whose result fits the destination wins. -/
def decodeLoop {α : Type} (name value : String) (dst : Payload → Option α) :
    List Codec → List String → Except Error α
  | [], errors => Except.error (Error.codec errors)
  | c :: cs, errors =>
    match c.Decode c.maxAge c.maxLength name value with
    | Except.ok p =>
      match dst p with
      | some a => Except.ok a
      | none => decodeLoop name value dst cs (errors ++ ["securecookie: type mismatch"])
    | Except.error e => decodeLoop name value dst cs (errors ++ [e])

/-- The function `securecookie.DecodeMulti`. -/
def DecodeMulti {α : Type} (name value : String) (dst : Payload → Option α)
    (codecs : List Codec) : Except Error α :=
  match codecs with
  | [] => Except.error Error.noCodecs
  | _ :: _ => decodeLoop name value dst codecs []

/-! ## Records and the database -/

/-- The struct `models.RecordID`. -/
structure RecordID where
  Table : String
  ID : String
  deriving DecidableEq, Repr

/-- The function `models.NewRecordID`. -/
def NewRecordID (table id : String) : RecordID := { Table := table, ID := id }

/-- The struct `SurrealSession`, the persisted record. -/
structure SurrealSession where
  ID : Option RecordID
  Data : String
  CreatedOn : Time
  ModifiedOn : Time
  ExpiresOn : Time
  deriving DecidableEq, Repr

/-- Behaviour of the database behind `store.DB` over states `σ`: each request
yields a result and the next state. `Select` returns `(*SurrealSession, error)`: an
error, or a pointer to the record, which may be nil (`none`). `Upsert`, `Delete` and
`Query` are used for their error only. -/
structure DBSem (σ : Type) where
  Select : σ → RecordID → Except Error (Option SurrealSession) × σ
  Upsert : σ → RecordID → SurrealSession → Option Error × σ
  Delete : σ → RecordID → Option Error × σ
  Query : σ → String → Option Error × σ

/-- A request sent to the database. -/
inductive DBCall where
  | select (id : RecordID)
  | upsert (id : RecordID) (s : SurrealSession)
  | delete (id : RecordID)
  | query (q : String)
  deriving DecidableEq, Repr

/-- The state outside the store value: the heap of `Options` objects, the database,
and the requests sent to the database so far (oldest first). -/
structure World (σ : Type) where
  heap : Heap
  db : σ
  calls : List DBCall

/-! ## HTTP -/

/-- A cookie of a request or response (`http.Cookie`), with the attributes that
`sessions.NewCookie` copies from the options. -/
structure Cookie where
  Name : String
  Value : String
  Path : String
  Domain : String
  MaxAge : Int
  Secure : Bool
  HttpOnly : Bool
  SameSite : Nat
  deriving DecidableEq, Repr

/-- The function `sessions.NewCookie`: name, value, and the attributes of `*options`. -/
def NewCookie (name value : String) (options : Options) : Cookie :=
  { Name := name, Value := value, Path := options.Path, Domain := options.Domain,
    MaxAge := options.MaxAge, Secure := options.Secure, HttpOnly := options.HttpOnly,
    SameSite := options.SameSite }

/-- The cookies of an `*http.Request`, as parsed from its `Cookie` headers. -/
abbrev Request := List Cookie

/-- The method `Request.Cookie`: the first cookie with the name, if any
(`none` is `http.ErrNoCookie`). -/
def requestCookie (r : Request) (name : String) : Option Cookie :=
  r.find? (fun c => c.Name == name)

/-- The table `isTokenTable` shared by `net/http` and `gorilla/sessions`: the
characters of an HTTP token, which are the letters, the digits and fifteen
punctuation characters of ASCII, given here by their codes. -/
def isToken (c : Char) : Bool :=
  c.toNat == 33 || (35 ≤ c.toNat && c.toNat ≤ 39) || c.toNat == 42 || c.toNat == 43 ||
  c.toNat == 45 || c.toNat == 46 || (48 ≤ c.toNat && c.toNat ≤ 57) ||
  (65 ≤ c.toNat && c.toNat ≤ 90) || (94 ≤ c.toNat && c.toNat ≤ 122) ||
  c.toNat == 124 || c.toNat == 126

/-- The function `isCookieNameValid` of `net/http` and of `gorilla/sessions`: a
non-empty string of token characters. -/
def isCookieNameValid (raw : String) : Bool :=
  raw != "" && raw.toList.all isToken

/-- The `Set-Cookie` headers of a response, oldest first, each as the cookie it was
written from. -/
abbrev Response := List Cookie

/-- The function `http.SetCookie`: the header is added when `cookie.String()` is not
empty, which is when the name of the cookie is valid. -/
def SetCookie (w : Response) (c : Cookie) : Response :=
  if isCookieNameValid c.Name then w ++ [c] else w

/-! ## Sessions and the store -/

/-- The struct `sessions.Session`. `Options` is the pointer `*sessions.Options`, an
address of the heap. -/
structure Session where
  ID : String
  Values : ValueMap
  Options : Nat
  IsNew : Bool
  name : String
  deriving DecidableEq, Repr

/-- The struct `SurrealStore`. `Options` is the pointer `*sessions.Options`, an address
of the heap; the database behind the handle `DB` is the `db` of the world. -/
structure SurrealStore where
  Codecs : List Codec
  Options : Nat

/-- The method `MaxLength`: sets the length limit of every `SecureCookie` codec. -/
def MaxLength (store : SurrealStore) (l : Int) : SurrealStore :=
  { store with
    Codecs := store.Codecs.map (fun c => if c.secure then { c with maxLength := l } else c) }

/-- The loop of `MaxAge`: the age limit of every `SecureCookie` codec is set. -/
def ageCodecs (age : Int) (codecs : List Codec) : List Codec :=
  codecs.map (fun c => if c.secure then { c with maxAge := age } else c)

/-- The method `MaxAge`: writes `Options.MaxAge` of the store and sets the age limit
of every `SecureCookie` codec. -/
def MaxAge (h : Heap) (store : SurrealStore) (age : Int) : Heap × SurrealStore :=
  (h.setMaxAge store.Options age, { store with Codecs := ageCodecs age store.Codecs })

/-- The method `load`: select the record of the session id and decode its data into
`session.Values`. `entry.Data` dereferences the pointer that `Select` returned: with
a nil pointer and a nil error the call panics. -/
def load {σ : Type} (E : DBSem σ) (w : World σ) (store : SurrealStore) (session : Session) :
    Outcome (Option Error) × Session × World σ :=
  let rid := NewRecordID "sessions" session.ID
  let res := E.Select w.db rid
  let w1 : World σ := { w with db := res.2, calls := w.calls ++ [DBCall.select rid] }
  match res.1 with
  | Except.error err => (Outcome.ret (some err), session, w1)
  | Except.ok none => (Outcome.panic, session, w1)
  | Except.ok (some entry) =>
    match DecodeMulti session.name entry.Data asValues store.Codecs with
    | Except.error err => (Outcome.ret (some err), session, w1)
    | Except.ok v => (Outcome.ret none, { session with Values := v }, w1)

/-- Lines 159-162 of `save`: `createdOn, ok := crOn.(time.Time)`, replaced by
`time.Now()` when the assertion fails. Returns the instant and the number of clock
readings taken. -/
def createdOnOf (clk : Nat → Time) (crOn : Val) : Time × Nat :=
  match crOn with
  | Val.time t => (t, 0)
  | _ => (clk 0, 1)

/-- Lines 164-171 of `save`, starting at clock reading `i`. Returns the expiry and the
index of the next clock reading, or `none` when the assertion `exOn.(time.Time)`
panics. -/
def expiresOnOf (clk : Nat → Time) (i : Nat) (exOn : Val) (maxAge : Int) : Option (Time × Nat) :=
  match exOn with
  | Val.nil => some (timeAdd (clk i) (secondsToDuration maxAge), i + 1)
  | Val.time expiresOn =>
    if timeSub expiresOn (timeAdd (clk i) (secondsToDuration maxAge)) < 0 then
      some (timeAdd (clk (i + 1)) (secondsToDuration maxAge), i + 2)
    else
      some (expiresOn, i + 1)
  | _ => none

/-- Lines 154-179 of `save`: the record built for a session whose values encoded to
`encoded`, with `maxAge` the value of `session.Options.MaxAge`; `none` when the
assertion `exOn.(time.Time)` panics. -/
def sessionRecord (clk : Nat → Time) (maxAge : Int) (session : Session) (encoded : String) :
    Option SurrealSession :=
  let crOn := mapIndex session.Values (Val.str "created_on")
  let exOn := mapIndex session.Values (Val.str "expires_on")
  let created := createdOnOf clk crOn
  match expiresOnOf clk created.2 exOn maxAge with
  | none => none
  | some ex =>
    some { ID := some { Table := "sessions", ID := session.ID }, Data := encoded,
           CreatedOn := created.1, ExpiresOn := ex.1, ModifiedOn := clk ex.2 }

/-- The method `save`: encode the values, build the record, upsert it. -/
def save {σ : Type} (E : DBSem σ) (clk : Nat → Time) (w : World σ) (store : SurrealStore)
    (session : Session) : Outcome (Option Error) × World σ :=
  match EncodeMulti session.name (Payload.values session.Values) store.Codecs with
  | Except.error err => (Outcome.ret (some err), w)
  | Except.ok encoded =>
    match sessionRecord clk (w.heap.get session.Options).MaxAge session encoded with
    | none => (Outcome.panic, w)
    | some s =>
      let rid : RecordID := { Table := "sessions", ID := session.ID }
      let res := E.Upsert w.db rid s
      (Outcome.ret res.1, { w with db := res.2, calls := w.calls ++ [DBCall.upsert rid s] })

/-- The method `delete`: delete the record of the session id. -/
def delete {σ : Type} (E : DBSem σ) (w : World σ) (_store : SurrealStore) (session : Session) :
    Option Error × World σ :=
  let rid := NewRecordID "sessions" session.ID
  let res := E.Delete w.db rid
  (res.1, { w with db := res.2, calls := w.calls ++ [DBCall.delete rid] })

/-- Lines 94-97 of `Save`: a session without an id receives the fresh one. -/
def mintID (fresh : String) (session : Session) : Session :=
  if session.ID = "" then { session with ID := fresh } else session

/-- The method `Save`. `fresh` is the value of
`strings.TrimRight(base32.StdEncoding.EncodeToString(securecookie.GenerateRandomKey(32)), "=")`
at this call. Returns the outcome, the world, the response and the session, which
`Save` mutates through its pointer. -/
def Save {σ : Type} (E : DBSem σ) (clk : Nat → Time) (fresh : String) (w : World σ)
    (store : SurrealStore) (_r : Request) (rw : Response) (session : Session) :
    Outcome (Option Error) × World σ × Response × Session :=
  if (w.heap.get session.Options).MaxAge < 0 then
    let res := delete E w store session
    match res.1 with
    | some err => (Outcome.ret (some err), res.2, rw, session)
    | none =>
      (Outcome.ret none, res.2,
        SetCookie rw (NewCookie session.name "" (res.2.heap.get session.Options)), session)
  else
    let session1 : Session := mintID fresh session
    let res := save E clk w store session1
    match res.1 with
    | Outcome.panic => (Outcome.panic, res.2, rw, session1)
    | Outcome.ret (some err) => (Outcome.ret (some err), res.2, rw, session1)
    | Outcome.ret none =>
      match EncodeMulti session1.name (Payload.str session1.ID) store.Codecs with
      | Except.error err => (Outcome.ret (some err), res.2, rw, session1)
      | Except.ok encoded =>
        (Outcome.ret none, res.2,
          SetCookie rw (NewCookie session1.name encoded (res.2.heap.get session1.Options)),
          session1)

/-- The function `sessions.NewSession`: empty values and `Options: new(Options)`. -/
def NewSession (h : Heap) (name : String) : Heap × Session :=
  let a := h.alloc Options.zero
  (a.1, { ID := "", Values := [], Options := a.2, IsNew := false, name := name })

/-- Lines 65-76 of `New`: the cookie, if present, is decoded into `session.ID` and the
session is loaded. Returns the session and the value of `err`, or a panic, and the
world. -/
def newFromCookie {σ : Type} (E : DBSem σ) (w : World σ) (store : SurrealStore) (r : Request)
    (name : String) (session : Session) : Outcome (Session × Option Error) × World σ :=
  match requestCookie r name with
  | none => (Outcome.ret (session, none), w)
  | some c =>
    match DecodeMulti name c.Value asString store.Codecs with
    | Except.error err => (Outcome.ret (session, some err), w)
    | Except.ok id =>
      let res := load E w store { session with ID := id }
      match res.1 with
      | Outcome.panic => (Outcome.panic, res.2.2)
      | Outcome.ret none => (Outcome.ret ({ res.2.1 with IsNew := false }, none), res.2.2)
      | Outcome.ret (some _) => (Outcome.ret (res.2.1, none), res.2.2)

/-- The method `New`. Returns the session and the error, or a panic; the world; and
the store, whose codecs `MaxAge` updates. -/
def New {σ : Type} (E : DBSem σ) (w : World σ) (store : SurrealStore) (r : Request)
    (name : String) : Outcome (Session × Option Error) × World σ × SurrealStore :=
  let ns := NewSession w.heap name
  let opts := ns.1.alloc (ns.1.get store.Options)
  let session : Session := { ns.2 with Options := opts.2, IsNew := true }
  let res := newFromCookie E { w with heap := opts.1 } store r name session
  match res.1 with
  | Outcome.panic => (Outcome.panic, res.2, store)
  | Outcome.ret out =>
    let m := MaxAge res.2.heap store (res.2.heap.get store.Options).MaxAge
    (Outcome.ret out, { res.2 with heap := m.1 }, m.2)

/-- The registry that `sessions.GetRegistry` attaches to a request: for each name, the
session obtained under it and the error `New` returned with it. The registry holds the
session by pointer, so an entry stands for the session object in its current state. -/
abbrev Registry := List (String × Session × Option Error)

/-- The method `Get`, which is `sessions.GetRegistry(r).Get(store, name)`, `reg` being
the registry of the request: an invalid name yields no session and an error; a name
already in the registry yields the session and the error kept there; any other name
goes to `New`, and the registry keeps the result. -/
def Get {σ : Type} (E : DBSem σ) (w : World σ) (store : SurrealStore) (reg : Registry)
    (r : Request) (name : String) :
    Outcome (Option Session × Option Error) × Registry × World σ × SurrealStore :=
  if isCookieNameValid name then
    match reg.lookup name with
    | some info => (Outcome.ret (some info.1, info.2), reg, w, store)
    | none =>
      let res := New E w store r name
      match res.1 with
      | Outcome.panic => (Outcome.panic, reg, res.2.1, res.2.2)
      | Outcome.ret out =>
        (Outcome.ret (some { out.1 with name := name }, out.2),
          (name, { out.1 with name := name }, out.2) :: reg, res.2.1, res.2.2)
  else
    (Outcome.ret (none, some (Error.invalidName name)), reg, w, store)

/-- The method `createSessionsTable`. -/
def createSessionsTable {σ : Type} (E : DBSem σ) (w : World σ) : Option Error × World σ :=
  let query := "DEFINE TABLE IF NOT EXISTS sessions SCHEMALESS"
  let res := E.Query w.db query
  (res.1, { w with db := res.2, calls := w.calls ++ [DBCall.query query] })

/-- The function `NewSurrealStore`; `codecs` is `securecookie.CodecsFromPairs(keyPairs...)`. -/
def NewSurrealStore {σ : Type} (E : DBSem σ) (w : World σ) (codecs : List Codec) :
    Except Error SurrealStore × World σ :=
  let a := w.heap.alloc { Options.zero with Path := "/", MaxAge := 86400 * 30 }
  let res := createSessionsTable E { w with heap := a.1 }
  match res.1 with
  | some err => (Except.error err, res.2)
  | none => (Except.ok { Codecs := codecs, Options := a.2 }, res.2)

/-! ## The cleanup worker -/

/-- The variable `defaultInterval`, five minutes. -/
def defaultInterval : Duration := 60 * Second * 5

/-- The method `deleteExpired`. -/
def deleteExpired {σ : Type} (E : DBSem σ) (w : World σ) : Option Error × World σ :=
  let query := "DELETE sessions WHERE expires_on < time::now()"
  let res := E.Query w.db query
  (res.1, { w with db := res.2, calls := w.calls ++ [DBCall.query query] })

/-- What the `select` of the worker can receive. -/
inductive Event where
  | tick
  | quit
  deriving DecidableEq, Repr

/-- Whether the goroutine of `cleanup` is still in its loop. -/
inductive Phase where
  | Running
  | Stopped
  deriving DecidableEq, Repr

/-- State of the goroutine of `cleanup`: the period of its ticker, the world, the
number of values sent on `done`, the errors printed with `log.Printf`, and whether the
deferred `ticker.Stop()` has run. -/
structure Worker (σ : Type) where
  phase : Phase
  interval : Duration
  world : World σ
  done : Nat
  logged : List Error
  tickerStopped : Bool

/-- The method `Cleanup`: the goroutine it starts, with the interval defaulted. -/
def Cleanup {σ : Type} (w : World σ) (interval : Duration) : Worker σ :=
  { phase := Phase.Running,
    interval := if interval ≤ 0 then defaultInterval else interval,
    world := w, done := 0, logged := [], tickerStopped := false }

/-- One iteration of the loop of `cleanup` on the received event. -/
def cleanupStep {σ : Type} (E : DBSem σ) (s : Worker σ) : Event → Worker σ
  | Event.quit => { s with phase := Phase.Stopped, done := s.done + 1, tickerStopped := true }
  | Event.tick =>
    let res := deleteExpired E s.world
    match res.1 with
    | some err => { s with world := res.2, logged := s.logged ++ [err] }
    | none => { s with world := res.2 }

/-- The method `cleanup` on a sequence of events: the loop runs until it returns; a
worker that has returned receives nothing. -/
def cleanup {σ : Type} (E : DBSem σ) : Worker σ → List Event → Worker σ
  | s, [] => s
  | s, ev :: evs =>
    match s.phase with
    | Phase.Stopped => s
    | Phase.Running => cleanup E (cleanupStep E s ev) evs

/-- The upserts of a log. -/
def upserts : List DBCall → List (RecordID × SurrealSession)
  | [] => []
  | DBCall.upsert id s :: cs => (id, s) :: upserts cs
  | _ :: cs => upserts cs

/-! ## Properties of collaborators used as assumptions -/

/-- Tokens made by the codecs `enc` decode under the codecs `dec`: a token made for a
value under a name decodes under that name to the value. -/
def RoundTripAt (enc dec : List Codec) : Prop :=
  ∀ (name tok : String),
    (∀ s, EncodeMulti name (Payload.str s) enc = Except.ok tok →
      DecodeMulti name tok asString dec = Except.ok s) ∧
    (∀ v, EncodeMulti name (Payload.values v) enc = Except.ok tok →
      DecodeMulti name tok asValues dec = Except.ok v)

/-- The database returns, for a select by id, the record just upserted under that
id. -/
def FetchAfterUpsert {σ : Type} (E : DBSem σ) : Prop :=
  ∀ db rid rec, (E.Upsert db rid rec).1 = none →
    (E.Select (E.Upsert db rid rec).2 rid).1 = Except.ok (some rec)

/-! ## Concrete collaborators -/

/-- An in-memory database: a table of records, newest first. A select of a missing
record returns no record and no error; nothing fails. -/
def memDB : DBSem (List (RecordID × SurrealSession)) where
  Select := fun db rid => (Except.ok (db.lookup rid), db)
  Upsert := fun db rid s => (none, (rid, s) :: db)
  Delete := fun db rid => (none, db.filter (fun e => e.1 != rid))
  Query := fun db _ => (none, db)

/-- A database that cannot be reached: every request fails in transport. -/
def downDB : DBSem Unit where
  Select := fun db _ => (Except.error (Error.store "connection closed"), db)
  Upsert := fun db _ _ => (some (Error.store "connection closed"), db)
  Delete := fun db _ => (some (Error.store "connection closed"), db)
  Query := fun db _ => (some (Error.store "connection closed"), db)

/-- Encoding of a small code book: the payloads it knows and their tokens. -/
def bookEncode (p : Payload) : Except String String :=
  if p = Payload.str "ID1" then Except.ok "t-id"
  else if p = Payload.str "ID2" then Except.ok "t-id2"
  else if p = Payload.str "" then Except.ok "t-noid"
  else if p = Payload.values [] then Except.ok "t-empty"
  else if p = Payload.values [(Val.str "counter", Val.int 1)] then Except.ok "t-c1"
  else if p = Payload.values [(Val.str "counter", Val.int 9)] then Except.ok "t-c9"
  else if p = Payload.values [(Val.str "expires_on", Val.time 5000000000000)] then
    Except.ok "t-ex"
  else if p = Payload.values [(Val.str "expires_on", Val.str "tomorrow")] then
    Except.ok "t-bad"
  else Except.error "securecookie: the value is too long"

/-- Decoding of the code book. -/
def bookDecode (t : String) : Except String Payload :=
  if t = "t-id" then Except.ok (Payload.str "ID1")
  else if t = "t-id2" then Except.ok (Payload.str "ID2")
  else if t = "t-noid" then Except.ok (Payload.str "")
  else if t = "t-empty" then Except.ok (Payload.values [])
  else if t = "t-c1" then Except.ok (Payload.values [(Val.str "counter", Val.int 1)])
  else if t = "t-c9" then Except.ok (Payload.values [(Val.str "counter", Val.int 9)])
  else if t = "t-ex" then
    Except.ok (Payload.values [(Val.str "expires_on", Val.time 5000000000000)])
  else if t = "t-bad" then
    Except.ok (Payload.values [(Val.str "expires_on", Val.str "tomorrow")])
  else Except.error "securecookie: the value is not valid"

/-- A codec working from the code book. Like a `SecureCookie`, it finds every token
expired when its age limit is negative. -/
def bookCodec : Codec where
  secure := true
  maxAge := 2592000
  maxLength := 4096
  Encode := fun _ _ _ p => bookEncode p
  Decode := fun age _ _ t =>
    if age < 0 then Except.error "securecookie: expired timestamp" else bookDecode t

/-- The heap before anything is allocated. -/
def heap0 : Heap := { cells := fun _ => Options.zero, next := 0 }

/-- A heap with one object at address 0, the options of a store, of max-age `m`. -/
def heapOf (m : Int) : Heap :=
  (heap0.alloc { Options.zero with Path := "/", MaxAge := m }).1

/-- A world over the in-memory database, empty, with the options of `heapOf m`. -/
def worldOf (m : Int) : World (List (RecordID × SurrealSession)) :=
  { heap := heapOf m, db := [], calls := [] }

/-- A world whose database cannot be reached. -/
def downWorld : World Unit := { heap := heapOf 2592000, db := (), calls := [] }

/-- A store with the code-book codec and its options at address 0. -/
def bookStore : SurrealStore := { Codecs := [bookCodec], Options := 0 }

/-- A session named "s" with the given id and values, its options at address 0. -/
def sessionOf (id : String) (v : ValueMap) : Session :=
  { ID := id, Values := v, Options := 0, IsNew := true, name := "s" }

/-- A request carrying the cookie "s" with the given value. -/
def requestOf (value : String) : Request :=
  [NewCookie "s" value Options.zero]

/-! ## Scenarios over the in-memory database -/

/-- The session that `New` returns for the name "s" to a request without cookie, in a
world where only the options of the store are allocated. -/
def newcomer : Session :=
  { ID := "", Values := [], Options := 2, IsNew := true, name := "s" }

/-- A first visit: `New` for a request without cookie, the store having max-age
3600 s. -/
def visit : Outcome (Session × Option Error) × World (List (RecordID × SurrealSession)) ×
    SurrealStore :=
  New memDB (worldOf 3600) bookStore [] "s"

/-- Round trip, step 1: the session of the visit is saved with `counter = 1`. -/
def trip1 : Outcome (Option Error) × World (List (RecordID × SurrealSession)) × Response ×
    Session :=
  Save memDB (fun _ => 1000) "ID1" visit.2.1 visit.2.2 [] []
    { newcomer with Values := [(Val.str "counter", Val.int 1)] }

/-- The session that `New` returns in step 2 of the round trip. -/
def tripLoaded : Session :=
  { ID := "ID1", Values := [(Val.str "counter", Val.int 1)], Options := 4, IsNew := false,
    name := "s" }

/-- Round trip, step 2: a request replays the cookie of step 1. -/
def trip2 : Outcome (Session × Option Error) × World (List (RecordID × SurrealSession)) ×
    SurrealStore :=
  New memDB trip1.2.1 visit.2.2 (requestOf "t-id") "s"

/-- Round trip, step 3: the counter is set to 9 and the session saved again. -/
def trip3 : Outcome (Option Error) × World (List (RecordID × SurrealSession)) × Response ×
    Session :=
  Save memDB (fun _ => 2000) "ID2" trip2.2.1 trip2.2.2 (requestOf "t-id") []
    { tripLoaded with Values := [(Val.str "counter", Val.int 9)] }

/-- Round trip, step 4: the same cookie is replayed. -/
def trip4 : Outcome (Session × Option Error) × World (List (RecordID × SurrealSession)) ×
    SurrealStore :=
  New memDB trip3.2.1 trip2.2.2 (requestOf "t-id") "s"

/-- Round trip without identifier, step 1: as `trip1`, the random source having
failed, so that the identifier minted is empty. -/
def blank1 : Outcome (Option Error) × World (List (RecordID × SurrealSession)) × Response ×
    Session :=
  Save memDB (fun _ => 1000) "" visit.2.1 visit.2.2 [] []
    { newcomer with Values := [(Val.str "counter", Val.int 1)] }

/-- Round trip without identifier, step 2: a request replays the cookie of step 1,
which encodes the empty identifier. -/
def blank2 : Outcome (Session × Option Error) × World (List (RecordID × SurrealSession)) ×
    SurrealStore :=
  New memDB blank1.2.1 visit.2.2 (requestOf "t-noid") "s"

/-- Round trip without identifier, step 3: the counter is set to 9 and the session
saved again; this time an identifier is minted. -/
def blank3 : Outcome (Option Error) × World (List (RecordID × SurrealSession)) × Response ×
    Session :=
  Save memDB (fun _ => 2000) "ID2" blank2.2.1 blank2.2.2 (requestOf "t-noid") []
    { ID := "", Values := [(Val.str "counter", Val.int 9)], Options := 4, IsNew := false,
      name := "s" }

/-- Round trip without identifier, step 4: the same cookie is replayed. -/
def blank4 : Outcome (Session × Option Error) × World (List (RecordID × SurrealSession)) ×
    SurrealStore :=
  New memDB blank3.2.1 blank2.2.2 (requestOf "t-noid") "s"

/-- Cached session, step 1: `Get` on a request without cookie and with an empty
registry. -/
def cached1 : Outcome (Option Session × Option Error) × Registry ×
    World (List (RecordID × SurrealSession)) × SurrealStore :=
  Get memDB (worldOf 3600) bookStore [] [] "s"

/-- Cached session, step 2: the session is given `counter = 1` and saved. -/
def cached2 : Outcome (Option Error) × World (List (RecordID × SurrealSession)) × Response ×
    Session :=
  Save memDB (fun _ => 1000) "ID1" cached1.2.2.1 cached1.2.2.2 [] []
    { newcomer with Values := [(Val.str "counter", Val.int 1)] }

/-- Cached session, step 3: the cookie is added to the request and `Get` is called
again on it; the registry of the request holds the session as step 2 left it. -/
def cached3 : Outcome (Option Session × Option Error) × Registry ×
    World (List (RecordID × SurrealSession)) × SurrealStore :=
  Get memDB cached2.2.1 cached1.2.2.2 [("s", cached2.2.2.2, none)] (requestOf "t-id") "s"

/-- Shared options, step 1: `Get` for the name "newsess" on a store of max-age 900 s,
as in `TestSessionOptionsAreUniquePerSession`. -/
def shared1 : Outcome (Option Session × Option Error) × Registry ×
    World (List (RecordID × SurrealSession)) × SurrealStore :=
  Get memDB (worldOf 900) bookStore [] [] "newsess"

/-- Shared options, step 2: the max-age of that session is set to -1 and `Get` is
called again on the same request. -/
def shared2 : Outcome (Option Session × Option Error) × Registry ×
    World (List (RecordID × SurrealSession)) × SurrealStore :=
  Get memDB { shared1.2.2.1 with heap := shared1.2.2.1.heap.setMaxAge 2 (-1) }
    shared1.2.2.2 shared1.2.1 [] "newsess"

/-- Resave, step 1: the session of the visit is saved at time 0 with its max-age of
3600 s. -/
def resave1 : Outcome (Option Error) × World (List (RecordID × SurrealSession)) × Response ×
    Session :=
  Save memDB (fun _ => 0) "ID1" visit.2.1 visit.2.2 [] [] newcomer

/-- Resave, step 2: the max-age of the same session is set to 60 s and the session
saved again, one second later. -/
def resave2 : Outcome (Option Error) × World (List (RecordID × SurrealSession)) × Response ×
    Session :=
  Save memDB (fun _ => 1000000000) "ID2"
    { resave1.2.1 with heap := resave1.2.1.heap.setMaxAge 2 60 }
    visit.2.2 [] [] resave1.2.2.2

/-- The session that `New` loads from the record of step 1 of the resave. -/
def resaveLoaded : Session :=
  { ID := "ID1", Values := [], Options := 4, IsNew := false, name := "s" }

/-- Resave, step 2 bis: instead, a request replays the cookie of step 1. -/
def resaveLoad : Outcome (Session × Option Error) ×
    World (List (RecordID × SurrealSession)) × SurrealStore :=
  New memDB resave1.2.1 visit.2.2 (requestOf "t-id") "s"

/-- Resave, step 3 bis: the max-age of the loaded session is set to 60 s and the
session saved, one second after step 1. -/
def resave3 : Outcome (Option Error) × World (List (RecordID × SurrealSession)) × Response ×
    Session :=
  Save memDB (fun _ => 1000000000) "ID2"
    { resaveLoad.2.1 with heap := resaveLoad.2.1.heap.setMaxAge 4 60 }
    resaveLoad.2.2 (requestOf "t-id") [] resaveLoaded

/-- A session named "my session", the name that `TestSurrealStore` passes to `New`
before its last saves; never saved, its options at address 0. -/
def spacedSession : Session :=
  { ID := "", Values := [], Options := 0, IsNew := true, name := "my session" }

/-! ## Time arithmetic -/

theorem timeSub_neg_iff (t u : Time) : timeSub t u < 0 ↔ t < u := by
  have key : ∀ a b : Int, (if a - b < -9223372036854775808 then (-9223372036854775808 : Int)
      else if 9223372036854775807 < a - b then 9223372036854775807 else a - b) < 0 ↔ a < b := by
    intro a b
    split_ifs <;> omega
  exact key t u

theorem wrap64_of_range (x : Int) (h1 : -9223372036854775808 ≤ x)
    (h2 : x ≤ 9223372036854775807) : wrap64 x = x := by
  unfold wrap64
  omega

theorem secondsToDuration_of_range (m : Int) (h1 : -9223372036 ≤ m) (h2 : m ≤ 9223372036) :
    secondsToDuration m = 1000000000 * m := by
  unfold secondsToDuration Second
  rw [wrap64_of_range m (by omega) (by omega)]
  exact wrap64_of_range _ (by omega) (by omega)

theorem expiresOnOf_nil (clk : Nat → Time) (i : Nat) (m : Int) :
    expiresOnOf clk i Val.nil m = some (timeAdd (clk i) (secondsToDuration m), i + 1) := rfl

theorem expiresOnOf_time_const (now : Time) (i : Nat) (p : Time) (m : Int) :
    ∃ k, expiresOnOf (fun _ => now) i (Val.time p) m =
      some (max p (timeAdd now (secondsToDuration m)), k) := by
  simp only [expiresOnOf, timeSub_neg_iff]
  split_ifs with h
  · exact ⟨i + 2, by rw [max_eq_right (le_of_lt h)]⟩
  · exact ⟨i + 1, by rw [max_eq_left (not_lt.mp h)]⟩

/-! ## The record built by save -/

theorem sessionRecord_absent (now : Time) (m : Int) (session : Session) (encoded : String)
    (h : mapIndex session.Values (Val.str "expires_on") = Val.nil) :
    ∃ rec, sessionRecord (fun _ => now) m session encoded = some rec ∧
      rec.ExpiresOn = timeAdd now (secondsToDuration m) := by
  simp [sessionRecord, h, expiresOnOf_nil]

theorem sessionRecord_prior (now : Time) (m : Int) (session : Session) (encoded : String)
    (p : Time) (h : mapIndex session.Values (Val.str "expires_on") = Val.time p) :
    ∃ rec, sessionRecord (fun _ => now) m session encoded = some rec ∧
      rec.ExpiresOn = max p (timeAdd now (secondsToDuration m)) := by
  obtain ⟨k, hk⟩ := expiresOnOf_time_const now
    (createdOnOf (fun _ => now) (mapIndex session.Values (Val.str "created_on"))).2 p m
  simp [sessionRecord, h, hk]

theorem mapIndex_of_lookup_none (v : ValueMap) (k : Val) (h : v.lookup k = none) :
    mapIndex v k = Val.nil := by
  simp [mapIndex, h]

theorem mapIndex_of_lookup_some (v : ValueMap) (k x : Val) (h : v.lookup k = some x) :
    mapIndex v k = x := by
  simp [mapIndex, h]

theorem save_of_record {σ : Type} (E : DBSem σ) (clk : Nat → Time) (w : World σ)
    (store : SurrealStore) (session : Session) (encoded : String) (rec : SurrealSession)
    (henc : EncodeMulti session.name (Payload.values session.Values) store.Codecs =
      Except.ok encoded)
    (hrec : sessionRecord clk (w.heap.get session.Options).MaxAge session encoded = some rec) :
    save E clk w store session =
      (Outcome.ret (E.Upsert w.db { Table := "sessions", ID := session.ID } rec).1,
        { w with db := (E.Upsert w.db { Table := "sessions", ID := session.ID } rec).2,
                 calls := w.calls ++ [DBCall.upsert { Table := "sessions", ID := session.ID } rec] }) := by
  simp [save, henc, hrec]

/-! ## The expiry rule of save -/

/-- C1, as stated, fails: with `MaxAge = 9223372037` the product with `time.Second`
wraps in 64 bits, and the record saved at `now = 1000` for a session without
"expires_on" entry does not expire at `now` plus 9223372037 seconds. -/
theorem save_expiry_rule_counterexample :
    (sessionOf "ID1" []).Values.lookup (Val.str "expires_on") = none ∧
    ((worldOf 9223372037).heap.get (sessionOf "ID1" []).Options).MaxAge = 9223372037 ∧
    (upserts (save memDB (fun _ => 1000) (worldOf 9223372037) bookStore
        (sessionOf "ID1" [])).2.calls).map (fun e => e.2.ExpiresOn) =
      [-9223372036709550616] ∧
    (-9223372036709550616 : Int) ≠ 1000 + 1000000000 * 9223372037 := by
  decide

/-- C1, amended. Expiry rule of `save`, while the duration does not overflow. For a
session whose values encode, with `Options.MaxAge = m` and
`-9223372036 <= m <= 9223372036`, saved at time `now` (every reading of the clock
during the call is `now`), let `requested` be `now` plus `m` seconds, in nanoseconds
`now + 1000000000 * m`. If `session.Values` has no "expires_on" entry, the record
handed to the upsert has `ExpiresOn = requested`; if the entry is a timestamp `p`, the
record has `ExpiresOn = max p requested`. -/
theorem save_expiry_rule {σ : Type} (E : DBSem σ) (now : Time) (w : World σ)
    (store : SurrealStore) (session : Session) (encoded : String) (m : Int)
    (hm : (w.heap.get session.Options).MaxAge = m)
    (hlo : -9223372036 ≤ m) (hhi : m ≤ 9223372036)
    (henc : EncodeMulti session.name (Payload.values session.Values) store.Codecs =
      Except.ok encoded) :
    (session.Values.lookup (Val.str "expires_on") = none →
      ∃ rec, (save E (fun _ => now) w store session).2.calls =
          w.calls ++ [DBCall.upsert { Table := "sessions", ID := session.ID } rec] ∧
        rec.ExpiresOn = now + 1000000000 * m) ∧
    (∀ p, session.Values.lookup (Val.str "expires_on") = some (Val.time p) →
      ∃ rec, (save E (fun _ => now) w store session).2.calls =
          w.calls ++ [DBCall.upsert { Table := "sessions", ID := session.ID } rec] ∧
        rec.ExpiresOn = max p (now + 1000000000 * m)) := by
  have hreq : timeAdd now (secondsToDuration m) = now + 1000000000 * m := by
    rw [secondsToDuration_of_range m hlo hhi]
    rfl
  refine ⟨?_, ?_⟩
  · intro hno
    obtain ⟨rec, hrec, hex⟩ := sessionRecord_absent now m session encoded
      (mapIndex_of_lookup_none _ _ hno)
    refine ⟨rec, ?_, by rw [hex, hreq]⟩
    rw [save_of_record E _ w store session encoded rec henc (by rw [hm]; exact hrec)]
  · intro p hp
    obtain ⟨rec, hrec, hex⟩ := sessionRecord_prior now m session encoded p
      (mapIndex_of_lookup_some _ _ _ hp)
    refine ⟨rec, ?_, by rw [hex, hreq]⟩
    rw [save_of_record E _ w store session encoded rec henc (by rw [hm]; exact hrec)]

/-- C1 amended, at a session with a prior expiry of 5000 s saved at 1 s with max-age
3600 s over the in-memory database: the prior expiry is kept. -/
theorem save_expiry_rule_witness :
    EncodeMulti "s" (Payload.values [(Val.str "expires_on", Val.time 5000000000000)])
        bookStore.Codecs = Except.ok "t-ex" ∧
    ∃ rec, (save memDB (fun _ => 1000000000) (worldOf 3600) bookStore
          (sessionOf "ID1" [(Val.str "expires_on", Val.time 5000000000000)])).2.calls =
        [] ++ [DBCall.upsert { Table := "sessions", ID := "ID1" } rec] ∧
      rec.ExpiresOn = max 5000000000000 (1000000000 + 1000000000 * 3600) :=
  ⟨rfl,
   (save_expiry_rule memDB 1000000000 (worldOf 3600) bookStore
      (sessionOf "ID1" [(Val.str "expires_on", Val.time 5000000000000)]) "t-ex" 3600
      (by decide) (by decide) (by decide) rfl).2 5000000000000 (by decide)⟩

/-- C8, as stated, fails: with `MaxAge = 9223372037`, a non-negative value of a 64-bit
`int`, the product with `time.Second` wraps to a negative duration and the record
saved at `now = 1000` with no prior expiry expires some 292 years before `now`. -/
theorem save_expiry_past_counterexample :
    ((worldOf 9223372037).heap.get (sessionOf "ID1" []).Options).MaxAge = 9223372037 ∧
    (0 : Int) ≤ 9223372037 ∧ (9223372037 : Int) ≤ 9223372036854775807 ∧
    (upserts (save memDB (fun _ => 1000) (worldOf 9223372037) bookStore
        (sessionOf "ID1" [])).2.calls).map (fun e => e.2.ExpiresOn) =
      [-9223372036709550616] ∧
    (-9223372036709550616 : Int) < 1000 := by
  decide

/-- C8, amended. No past expiry on a non-deleting save while the duration does not
overflow: for `0 ≤ MaxAge ≤ 9223372036` (the values whose product with `time.Second`
fits 64 bits) and every prior expiry (absent or any timestamp), the `ExpiresOn` of
the record that `save` hands to the upsert is not earlier than the time `now` at
which `save` runs. -/
theorem save_expiry_not_past {σ : Type} (E : DBSem σ) (now : Time) (w : World σ)
    (store : SurrealStore) (session : Session) (encoded : String) (m : Int)
    (hm : (w.heap.get session.Options).MaxAge = m) (h0 : 0 ≤ m) (h1 : m ≤ 9223372036)
    (henc : EncodeMulti session.name (Payload.values session.Values) store.Codecs =
      Except.ok encoded)
    (hex : mapIndex session.Values (Val.str "expires_on") = Val.nil ∨
      ∃ p, mapIndex session.Values (Val.str "expires_on") = Val.time p) :
    ∃ rec, (save E (fun _ => now) w store session).2.calls =
        w.calls ++ [DBCall.upsert { Table := "sessions", ID := session.ID } rec] ∧
      now ≤ rec.ExpiresOn := by
  have hreq : now ≤ timeAdd now (secondsToDuration m) := by
    have key : ∀ a b : Int, 0 ≤ b → a ≤ a + 1000000000 * b := by
      intro a b hb
      omega
    rw [secondsToDuration_of_range m (by omega) h1]
    exact key now m h0
  rcases hex with hno | ⟨p, hp⟩
  · obtain ⟨rec, hrec, hx⟩ := sessionRecord_absent now m session encoded hno
    refine ⟨rec, ?_, by rw [hx]; exact hreq⟩
    rw [save_of_record E _ w store session encoded rec henc (by rw [hm]; exact hrec)]
  · obtain ⟨rec, hrec, hx⟩ := sessionRecord_prior now m session encoded p hp
    refine ⟨rec, ?_, by rw [hx]; exact le_trans hreq (le_max_right _ _)⟩
    rw [save_of_record E _ w store session encoded rec henc (by rw [hm]; exact hrec)]

/-- C8 amended, at a session with a prior expiry (5000 s) saved at `now` = 1000 s
with max-age 0. -/
theorem save_expiry_not_past_witness :
    ∃ rec, (save memDB (fun _ => 1000000000000) (worldOf 0) bookStore
          (sessionOf "ID1" [(Val.str "expires_on", Val.time 5000000000000)])).2.calls =
        [] ++ [DBCall.upsert { Table := "sessions", ID := "ID1" } rec] ∧
      (1000000000000 : Int) ≤ rec.ExpiresOn :=
  save_expiry_not_past memDB 1000000000000 (worldOf 0) bookStore
    (sessionOf "ID1" [(Val.str "expires_on", Val.time 5000000000000)]) "t-ex" 0
    (by decide) (by decide) (by decide) rfl
    (Or.inr ⟨5000000000000, by decide⟩)

/-- C10. Totality of the timestamp computation of `save`. For a session whose values
encode: whenever `Values["expires_on"]` is absent (the index expression yields `nil`)
or is a timestamp, `save` returns, having issued the upsert and nothing else, and the
record carries `Values["created_on"]` when that is a timestamp and the first clock
reading otherwise; when `Values["expires_on"]` is present (not `nil`) and is not a
timestamp, `save` panics, with the world as it was: no error returned, no upsert
issued. -/
theorem save_timestamps_total {σ : Type} (E : DBSem σ) (clk : Nat → Time) (w : World σ)
    (store : SurrealStore) (session : Session) (encoded : String)
    (henc : EncodeMulti session.name (Payload.values session.Values) store.Codecs =
      Except.ok encoded) :
    ((mapIndex session.Values (Val.str "expires_on") = Val.nil ∨
        ∃ p, mapIndex session.Values (Val.str "expires_on") = Val.time p) →
      ∃ rec,
        save E clk w store session =
          (Outcome.ret (E.Upsert w.db { Table := "sessions", ID := session.ID } rec).1,
            { w with
              db := (E.Upsert w.db { Table := "sessions", ID := session.ID } rec).2,
              calls := w.calls ++
                [DBCall.upsert { Table := "sessions", ID := session.ID } rec] }) ∧
        rec.CreatedOn =
          (match mapIndex session.Values (Val.str "created_on") with
            | Val.time c => c
            | _ => clk 0)) ∧
    (mapIndex session.Values (Val.str "expires_on") ≠ Val.nil →
      (∀ p, mapIndex session.Values (Val.str "expires_on") ≠ Val.time p) →
      save E clk w store session = (Outcome.panic, w)) := by
  constructor
  · intro hex
    have hrec : ∃ rec, sessionRecord clk (w.heap.get session.Options).MaxAge session encoded =
          some rec ∧
        rec.CreatedOn =
          (match mapIndex session.Values (Val.str "created_on") with
            | Val.time c => c
            | _ => clk 0) := by
      rcases hex with hno | ⟨p, hp⟩
      · simp only [sessionRecord, hno, expiresOnOf]
        refine ⟨_, rfl, ?_⟩
        cases mapIndex session.Values (Val.str "created_on") <;> rfl
      · simp only [sessionRecord, hp, expiresOnOf]
        split_ifs
        · refine ⟨_, rfl, ?_⟩
          cases mapIndex session.Values (Val.str "created_on") <;> rfl
        · refine ⟨_, rfl, ?_⟩
          cases mapIndex session.Values (Val.str "created_on") <;> rfl
    obtain ⟨rec, h1, h2⟩ := hrec
    exact ⟨rec, save_of_record E clk w store session encoded rec henc h1, h2⟩
  · intro hnil htime
    have hrec : sessionRecord clk (w.heap.get session.Options).MaxAge session encoded = none := by
      unfold sessionRecord
      cases hv : mapIndex session.Values (Val.str "expires_on") with
      | nil => exact absurd hv hnil
      | time p => exact absurd hv (htime p)
      | int n => rfl
      | str x => rfl
      | bool b => rfl
      | bytes b => rfl
    simp [save, henc, hrec]

/-- C10, at a session whose "expires_on" is the string "tomorrow": the values encode,
and `save` panics without touching the database. -/
theorem save_timestamps_total_witness :
    EncodeMulti "s" (Payload.values [(Val.str "expires_on", Val.str "tomorrow")])
        bookStore.Codecs = Except.ok "t-bad" ∧
    save memDB (fun i => 1000 + i) (worldOf 3600) bookStore
        (sessionOf "ID1" [(Val.str "expires_on", Val.str "tomorrow")]) =
      (Outcome.panic, worldOf 3600) :=
  ⟨rfl,
   (save_timestamps_total memDB (fun i => 1000 + i) (worldOf 3600) bookStore
      (sessionOf "ID1" [(Val.str "expires_on", Val.str "tomorrow")]) "t-bad" rfl).2
      (by decide) (fun p h => Val.noConfusion h)⟩

/-! ## Save with a negative max-age -/

/-- C5, as stated, fails: for a session named "my session", which is not a valid
cookie name, `Save` with max-age -1 deletes and returns nil, and `http.SetCookie`
drops the cookie: the response has no `Set-Cookie`. -/
theorem Save_negative_maxAge_counterexample :
    ((worldOf (-1)).heap.get spacedSession.Options).MaxAge < 0 ∧
    (memDB.Delete (worldOf (-1)).db (NewRecordID "sessions" spacedSession.ID)).1 = none ∧
    (Save memDB (fun _ => 1000) "ID1" (worldOf (-1)) bookStore [] [] spacedSession).1 =
      Outcome.ret none ∧
    (Save memDB (fun _ => 1000) "ID1" (worldOf (-1)) bookStore [] [] spacedSession).2.2.1 =
      [] := by
  decide

/-- C5, amended. Deleting save. For a session with `Options.MaxAge < 0`, with or
without an id, and a database state in which the delete of the session id succeeds,
`Save` returns nil; it sends the database exactly one request, the delete of the
session id, and no upsert; the session, its id included, is unchanged. When the name
of the session is a valid cookie name, the response receives exactly one `Set-Cookie`,
for that name, with an empty value and the attributes of the options of the session;
for any other name `http.SetCookie` writes nothing. -/
theorem Save_negative_maxAge_deletes {σ : Type} (E : DBSem σ) (clk : Nat → Time)
    (fresh : String) (w : World σ) (store : SurrealStore) (r : Request) (rw : Response)
    (session : Session)
    (hneg : (w.heap.get session.Options).MaxAge < 0)
    (hdel : (E.Delete w.db (NewRecordID "sessions" session.ID)).1 = none) :
    (Save E clk fresh w store r rw session).1 = Outcome.ret none ∧
    (Save E clk fresh w store r rw session).2.1 =
      { w with db := (E.Delete w.db (NewRecordID "sessions" session.ID)).2,
               calls := w.calls ++ [DBCall.delete (NewRecordID "sessions" session.ID)] } ∧
    (Save E clk fresh w store r rw session).2.2.2 = session ∧
    upserts (Save E clk fresh w store r rw session).2.1.calls = upserts w.calls ∧
    (isCookieNameValid session.name = true →
      (Save E clk fresh w store r rw session).2.2.1 =
        rw ++ [NewCookie session.name "" (w.heap.get session.Options)]) ∧
    (isCookieNameValid session.name = false →
      (Save E clk fresh w store r rw session).2.2.1 = rw) ∧
    (NewCookie session.name "" (w.heap.get session.Options)).Name = session.name ∧
    (NewCookie session.name "" (w.heap.get session.Options)).Value = "" ∧
    (NewCookie session.name "" (w.heap.get session.Options)).MaxAge =
      (w.heap.get session.Options).MaxAge := by
  have hup : ∀ (cs : List DBCall) (rid : RecordID),
      upserts (cs ++ [DBCall.delete rid]) = upserts cs := by
    intro cs rid
    induction cs with
    | nil => rfl
    | cons c cs ih => cases c <;> simp [upserts, ih]
  have heq : Save E clk fresh w store r rw session =
      (Outcome.ret none,
        { w with db := (E.Delete w.db (NewRecordID "sessions" session.ID)).2,
                 calls := w.calls ++ [DBCall.delete (NewRecordID "sessions" session.ID)] },
        SetCookie rw (NewCookie session.name "" (w.heap.get session.Options)),
        session) := by
    simp [Save, hneg, delete, hdel]
  refine ⟨by rw [heq], by rw [heq], by rw [heq], ?_, ?_, ?_, rfl, rfl, rfl⟩
  · rw [heq]
    exact hup _ _
  · intro hv
    rw [heq]
    show SetCookie rw _ = _
    unfold SetCookie
    rw [if_pos (by exact hv)]
  · intro hv
    rw [heq]
    show SetCookie rw _ = _
    unfold SetCookie
    rw [if_neg (by
      show ¬ isCookieNameValid session.name = true
      rw [hv]
      exact Bool.false_ne_true)]

/-- C5 amended, at a session named "s" that was never saved (empty id), with max-age
-1, over the in-memory database: no id is minted and one cookie is written. -/
theorem Save_negative_maxAge_deletes_witness :
    ((worldOf (-1)).heap.get (sessionOf "" []).Options).MaxAge < 0 ∧
    (Save memDB (fun _ => 1000) "ID1" (worldOf (-1)) bookStore [] [] (sessionOf "" [])).2.2.2 =
      sessionOf "" [] ∧
    (Save memDB (fun _ => 1000) "ID1" (worldOf (-1)) bookStore [] [] (sessionOf "" [])).2.2.1 =
      [] ++ [NewCookie "s" "" ((worldOf (-1)).heap.get 0)] :=
  ⟨by decide,
   (Save_negative_maxAge_deletes memDB (fun _ => 1000) "ID1" (worldOf (-1)) bookStore [] []
      (sessionOf "" []) (by decide) rfl).2.2.1,
   (Save_negative_maxAge_deletes memDB (fun _ => 1000) "ID1" (worldOf (-1)) bookStore [] []
      (sessionOf "" []) (by decide) rfl).2.2.2.2.1 (by decide)⟩

/-! ## New: what becomes of failures -/

theorem load_frame {σ : Type} (E : DBSem σ) (w : World σ) (store : SurrealStore)
    (session : Session) :
    (load E w store session).2.2 =
      { w with db := (E.Select w.db (NewRecordID "sessions" session.ID)).2,
               calls := w.calls ++ [DBCall.select (NewRecordID "sessions" session.ID)] } ∧
    (load E w store session).2.1.Options = session.Options ∧
    (load E w store session).2.1.name = session.name ∧
    (load E w store session).2.1.ID = session.ID := by
  simp only [load]
  split
  · simp
  · simp
  · split <;> simp

theorem newFromCookie_heap {σ : Type} (E : DBSem σ) (w : World σ) (store : SurrealStore)
    (r : Request) (name : String) (session : Session) :
    (newFromCookie E w store r name session).2.heap = w.heap ∧
    ∀ s e, (newFromCookie E w store r name session).1 = Outcome.ret (s, e) →
      s.Options = session.Options ∧ s.name = session.name := by
  simp only [newFromCookie]
  split
  · refine ⟨rfl, ?_⟩
    intro s e h
    cases h
    exact ⟨rfl, rfl⟩
  · split
    · refine ⟨rfl, ?_⟩
      intro s e h
      cases h
      exact ⟨rfl, rfl⟩
    · rename_i id _
      have h := load_frame E w store { session with ID := id }
      split
      · refine ⟨by rw [h.1], ?_⟩
        intro s e hh
        cases hh
      · refine ⟨by rw [h.1], ?_⟩
        intro s e hh
        cases hh
        exact ⟨h.2.1, h.2.2.1⟩
      · refine ⟨by rw [h.1], ?_⟩
        intro s e hh
        cases hh
        exact ⟨h.2.1, h.2.2.1⟩

/-- C3, as stated, fails: a request whose cookie "s" holds a value that the codec
rejects gets, from `New`, the codec error and not nil. -/
theorem New_cookie_rejected_counterexample :
    requestCookie (requestOf "garbage") "s" = some (NewCookie "s" "garbage" Options.zero) ∧
    DecodeMulti "s" "garbage" asString bookStore.Codecs =
      Except.error (Error.codec ["securecookie: the value is not valid"]) ∧
    (New memDB (worldOf 3600) bookStore (requestOf "garbage") "s").1 =
      Outcome.ret (newcomer, some (Error.codec ["securecookie: the value is not valid"])) ∧
    (New memDB (worldOf 3600) bookStore (requestOf "garbage") "s").1 ≠
      Outcome.ret (newcomer, none) :=
  ⟨by decide, rfl, by decide, by decide⟩

/-- C3, amended. For a request that carries a cookie named `name` whose value the
codecs reject (`DecodeMulti` returns an error), `New` returns a session with
`IsNew = true`, empty `Values` and an empty id, together with that codec error; the
database is not consulted. -/
theorem New_cookie_rejected {σ : Type} (E : DBSem σ) (w : World σ) (store : SurrealStore)
    (r : Request) (name : String) (c : Cookie) (err : Error)
    (hc : requestCookie r name = some c)
    (hdec : DecodeMulti name c.Value asString store.Codecs = Except.error err) :
    ∃ s, (New E w store r name).1 = Outcome.ret (s, some err) ∧
      s.IsNew = true ∧
      s.Values = [] ∧
      s.ID = "" ∧
      (New E w store r name).2.1.calls = w.calls := by
  refine ⟨{ ID := "", Values := [], Options := w.heap.next + 1, IsNew := true, name := name },
    ?_, rfl, rfl, rfl, ?_⟩
  · simp [New, newFromCookie, hc, hdec, NewSession, Heap.alloc]
  · simp [New, newFromCookie, hc, hdec, NewSession]

/-- C3 amended, at the request with the cookie value "garbage". -/
theorem New_cookie_rejected_witness :
    requestCookie (requestOf "garbage") "s" = some (NewCookie "s" "garbage" Options.zero) ∧
    ∃ s, (New memDB (worldOf 3600) bookStore (requestOf "garbage") "s").1 =
        Outcome.ret (s, some (Error.codec ["securecookie: the value is not valid"])) ∧
      s.IsNew = true ∧
      s.Values = [] ∧
      s.ID = "" ∧
      (New memDB (worldOf 3600) bookStore (requestOf "garbage") "s").2.1.calls =
        (worldOf 3600).calls :=
  ⟨by decide,
   New_cookie_rejected memDB (worldOf 3600) bookStore (requestOf "garbage") "s"
      (NewCookie "s" "garbage" Options.zero)
      (Error.codec ["securecookie: the value is not valid"]) (by decide) rfl⟩

/-- C4, as stated, fails: the cookie decodes to the id "ID1", the select fails with a
transport error, and `New` returns a nil error. -/
theorem New_store_error_counterexample :
    DecodeMulti "s" "t-id" asString bookStore.Codecs = Except.ok "ID1" ∧
    (downDB.Select downWorld.db (NewRecordID "sessions" "ID1")).1 =
      Except.error (Error.store "connection closed") ∧
    (New downDB downWorld bookStore (requestOf "t-id") "s").1 =
      Outcome.ret ({ ID := "ID1", Values := [], Options := 2, IsNew := true, name := "s" },
        none) ∧
    (New downDB downWorld bookStore (requestOf "t-id") "s").2.1.calls =
      [DBCall.select (NewRecordID "sessions" "ID1")] :=
  ⟨rfl, rfl, by decide, by decide⟩

theorem New_of_decoded_cookie {σ : Type} (E : DBSem σ) (w : World σ)
    (store : SurrealStore) (r : Request) (name : String) (c : Cookie) (id : String)
    (hc : requestCookie r name = some c)
    (hdec : DecodeMulti name c.Value asString store.Codecs = Except.ok id) :
    (New E w store r name).2.1.calls = w.calls ++ [DBCall.select (NewRecordID "sessions" id)] ∧
    (∀ err, (E.Select w.db (NewRecordID "sessions" id)).1 = Except.error err →
      (New E w store r name).1 =
        Outcome.ret ({ ID := id, Values := [], Options := w.heap.next + 1, IsNew := true,
                       name := name }, none)) ∧
    ((E.Select w.db (NewRecordID "sessions" id)).1 = Except.ok none →
      (New E w store r name).1 = Outcome.panic) ∧
    (∀ entry err, (E.Select w.db (NewRecordID "sessions" id)).1 = Except.ok (some entry) →
      DecodeMulti name entry.Data asValues store.Codecs = Except.error err →
      (New E w store r name).1 =
        Outcome.ret ({ ID := id, Values := [], Options := w.heap.next + 1, IsNew := true,
                       name := name }, none)) ∧
    (∀ entry v, (E.Select w.db (NewRecordID "sessions" id)).1 = Except.ok (some entry) →
      DecodeMulti name entry.Data asValues store.Codecs = Except.ok v →
      (New E w store r name).1 =
        Outcome.ret ({ ID := id, Values := v, Options := w.heap.next + 1, IsNew := false,
                       name := name }, none)) := by
  rcases hsel : (E.Select w.db (NewRecordID "sessions" id)).1 with err | entry
  · simp [New, newFromCookie, hc, hdec, load, NewSession, hsel, Heap.alloc]
  · cases entry with
    | none => simp [New, newFromCookie, hc, hdec, load, NewSession, hsel, Heap.alloc]
    | some entry =>
      rcases hd : DecodeMulti name entry.Data asValues store.Codecs with err | v
      · simp [New, newFromCookie, hc, hdec, load, NewSession, hsel, hd, Heap.alloc]
        intro e2 v2 he
        subst he
        rw [hd]
        simp
      · simp [New, newFromCookie, hc, hdec, load, NewSession, hsel, hd, Heap.alloc]
        constructor
        · intro e2 err2 he
          subst he
          rw [hd]
          simp
        · intro e2 v2 he hd2
          subst he
          rw [hd] at hd2
          cases hd2
          rfl

/-- What `New` does when `Select` returns neither a record nor an error, as the
in-memory database does for a missing record: `load` dereferences a nil pointer and
the call panics. -/
theorem New_missing_record_panics :
    (memDB.Select (worldOf 3600).db (NewRecordID "sessions" "ID1")).1 = Except.ok none ∧
    (New memDB (worldOf 3600) bookStore (requestOf "t-id") "s").1 = Outcome.panic :=
  ⟨rfl, by decide⟩

/-- C4, amended. For a request whose cookie decodes to an id, `New` sends one select
for that id. Whenever the select returns an error, a not-found error or any other
store error, or returns a record whose data fails to decode, `New` returns a nil
error and a session with `IsNew = true` and empty `Values`; when it returns a record
whose data decodes, `New` returns a nil error and a session with `IsNew = false` and
the decoded values. In each case the id of the session is the decoded one. -/
theorem New_load_failure_swallowed {σ : Type} (E : DBSem σ) (w : World σ)
    (store : SurrealStore) (r : Request) (name : String) (c : Cookie) (id : String)
    (hc : requestCookie r name = some c)
    (hdec : DecodeMulti name c.Value asString store.Codecs = Except.ok id) :
    (New E w store r name).2.1.calls = w.calls ++ [DBCall.select (NewRecordID "sessions" id)] ∧
    (∀ err, (E.Select w.db (NewRecordID "sessions" id)).1 = Except.error err →
      ∃ s, (New E w store r name).1 = Outcome.ret (s, none) ∧
        s.IsNew = true ∧ s.Values = [] ∧ s.ID = id) ∧
    (∀ entry err, (E.Select w.db (NewRecordID "sessions" id)).1 = Except.ok (some entry) →
      DecodeMulti name entry.Data asValues store.Codecs = Except.error err →
      ∃ s, (New E w store r name).1 = Outcome.ret (s, none) ∧
        s.IsNew = true ∧ s.Values = [] ∧ s.ID = id) ∧
    (∀ entry v, (E.Select w.db (NewRecordID "sessions" id)).1 = Except.ok (some entry) →
      DecodeMulti name entry.Data asValues store.Codecs = Except.ok v →
      ∃ s, (New E w store r name).1 = Outcome.ret (s, none) ∧
        s.IsNew = false ∧ s.Values = v ∧ s.ID = id) := by
  obtain ⟨h1, h2, _, h4, h5⟩ := New_of_decoded_cookie E w store r name c id hc hdec
  exact ⟨h1, fun err he => ⟨_, h2 err he, rfl, rfl, rfl⟩,
    fun entry err he hd => ⟨_, h4 entry err he hd, rfl, rfl, rfl⟩,
    fun entry v he hd => ⟨_, h5 entry v he hd, rfl, rfl, rfl⟩⟩

/-- C4 amended, at the unreachable database: the transport error of the select is not
returned. -/
theorem New_load_failure_swallowed_witness :
    requestCookie (requestOf "t-id") "s" = some (NewCookie "s" "t-id" Options.zero) ∧
    ∃ s, (New downDB downWorld bookStore (requestOf "t-id") "s").1 = Outcome.ret (s, none) ∧
      s.IsNew = true ∧ s.Values = [] ∧ s.ID = "ID1" :=
  ⟨by decide,
   (New_load_failure_swallowed downDB downWorld bookStore (requestOf "t-id") "s"
      (NewCookie "s" "t-id" Options.zero) "ID1" (by decide) rfl).2.1
      (Error.store "connection closed") rfl⟩

/-! ## New and Get: the options of a session are its own -/

theorem Heap.get_setMaxAge_of_ne (h : Heap) (p q : Nat) (v : Int) (hne : q ≠ p) :
    (h.setMaxAge p v).get q = h.get q := by
  simp [Heap.setMaxAge, Heap.set, Heap.get, hne]

theorem Heap.get_setMaxAge_same (h : Heap) (p : Nat) (v : Int) :
    ((h.setMaxAge p v).get p).MaxAge = v := by
  simp [Heap.setMaxAge, Heap.set, Heap.get]

theorem Heap.next_setMaxAge (h : Heap) (p : Nat) (v : Int) :
    (h.setMaxAge p v).next = h.next := rfl

theorem New_heap {σ : Type} (E : DBSem σ) (w : World σ) (store : SurrealStore) (r : Request)
    (name : String) (hs : store.Options < w.heap.next) :
    (New E w store r name).2.1.heap.next = w.heap.next + 2 ∧
    (New E w store r name).2.2.Options = store.Options ∧
    (∀ q, q < w.heap.next → (New E w store r name).2.1.heap.get q = w.heap.get q) ∧
    (New E w store r name).2.1.heap.get (w.heap.next + 1) = w.heap.get store.Options ∧
    (∀ s e, (New E w store r name).1 = Outcome.ret (s, e) →
      s.Options = w.heap.next + 1 ∧ s.name = name) := by
  have hne0 : store.Options ≠ w.heap.next := by omega
  have hne1 : store.Options ≠ w.heap.next + 1 := by omega
  have hne2 : w.heap.next + 1 ≠ store.Options := by omega
  have h := newFromCookie_heap E
    { w with heap := ((NewSession w.heap name).1.alloc
        ((NewSession w.heap name).1.get store.Options)).1 } store r name
    { (NewSession w.heap name).2 with
      Options := ((NewSession w.heap name).1.alloc
        ((NewSession w.heap name).1.get store.Options)).2, IsNew := true }
  obtain ⟨hh, hsn⟩ := h
  simp only [New]
  split
  · rename_i hp
    refine ⟨?_, rfl, ?_, ?_, ?_⟩
    · show (newFromCookie E _ store r name _).2.heap.next = _
      rw [hh]
      rfl
    · intro q hq
      have hq0 : q ≠ w.heap.next := by omega
      have hq1 : q ≠ w.heap.next + 1 := by omega
      show (newFromCookie E _ store r name _).2.heap.get q = _
      rw [hh]
      simp [Heap.get, Heap.alloc, NewSession, hq0, hq1]
    · show (newFromCookie E _ store r name _).2.heap.get _ = _
      rw [hh]
      simp [Heap.get, Heap.alloc, NewSession, hne0]
    · intro s e hret
      cases hret
  · rename_i out hp
    refine ⟨?_, rfl, ?_, ?_, ?_⟩
    · simp only [MaxAge]
      rw [hh]
      rfl
    · intro q hq
      have hq0 : q ≠ w.heap.next := by omega
      have hq1 : q ≠ w.heap.next + 1 := by omega
      simp only [MaxAge]
      rw [hh]
      by_cases hqs : q = store.Options
      · subst hqs
        simp [Heap.setMaxAge, Heap.set, Heap.get, Heap.alloc, NewSession, hq0, hq1]
      · simp [Heap.setMaxAge, Heap.set, Heap.get, Heap.alloc, NewSession, hq0, hq1, hqs]
    · simp only [MaxAge]
      rw [hh]
      simp [Heap.setMaxAge, Heap.set, Heap.get, Heap.alloc, NewSession, hne0, hne2]
    · intro s e hret
      have hso := hsn out.1 out.2 hp
      cases hret
      exact hso

theorem Get_first {σ : Type} (E : DBSem σ) (w : World σ) (store : SurrealStore)
    (reg : Registry) (r : Request) (name : String) (s : Session) (e : Option Error)
    (hv : isCookieNameValid name = true) (hreg : reg.lookup name = none)
    (hsn : s.name = name)
    (hnew : (New E w store r name).1 = Outcome.ret (s, e)) :
    Get E w store reg r name =
      (Outcome.ret (some s, e), (name, s, e) :: reg, (New E w store r name).2.1,
        (New E w store r name).2.2) := by
  have hs : ({ s with name := name } : Session) = s := by
    cases s
    simp only [Session.mk.injEq, true_and]
    exact hsn.symm
  simp only [Get, hv, hreg, hnew, if_true, hs]

theorem Get_cached {σ : Type} (E : DBSem σ) (w : World σ) (store : SurrealStore)
    (reg : Registry) (r : Request) (name : String) (s : Session) (e : Option Error)
    (hv : isCookieNameValid name = true) (hreg : reg.lookup name = some (s, e)) :
    Get E w store reg r name = (Outcome.ret (some s, e), reg, w, store) := by
  simp only [Get, hv, hreg, if_true]

theorem Get_invalid {σ : Type} (E : DBSem σ) (w : World σ) (store : SurrealStore)
    (reg : Registry) (r : Request) (name : String) (hv : isCookieNameValid name = false) :
    Get E w store reg r name =
      (Outcome.ret (none, some (Error.invalidName name)), reg, w, store) := by
  simp [Get, hv]

/-- C6, as stated, fails for `Get`. On a store of max-age 900 s, `Get` returns a
session for "newsess"; its max-age is set to -1; a second `Get` for the same name on
the same request returns the same session, whose options are not equal to those of
the store. For the name "my session" `Get` returns no session at all. -/
theorem Get_options_counterexample :
    shared1.1 =
      Outcome.ret (some { ID := "", Values := [], Options := 2, IsNew := true,
                          name := "newsess" }, none) ∧
    shared2.1 =
      Outcome.ret (some { ID := "", Values := [], Options := 2, IsNew := true,
                          name := "newsess" }, none) ∧
    (shared2.2.2.1.heap.get 2).MaxAge = -1 ∧
    (shared2.2.2.1.heap.get shared2.2.2.2.Options).MaxAge = 900 ∧
    (Get memDB (worldOf 900) bookStore [] [] "my session").1 =
      Outcome.ret (none, some (Error.invalidName "my session")) := by
  decide

/-- C6, amended. Options independence. Let `O` be the options of a store (a valid
pointer) when `New` is called and returns. The session returned has its own `Options`
object, equal to `O`; the call changes neither the options of the store nor any
object allocated before, such as the options of a session obtained earlier (`q`). A
second session that `New` returns has again its own copy equal to `O`. Assigning
`Options.MaxAge` of one session, after both calls or between them, leaves the options
of the store, of the other session and of earlier sessions as they were. `Get` for a
valid cookie name that is not yet in the registry of the request returns the session
and the world of `New`, so all of this holds for it; for a name already in the
registry it returns the session kept there and changes nothing; for an invalid name
it returns no session and an error. -/
theorem New_options_independent {σ : Type} (E : DBSem σ) (w : World σ) (store : SurrealStore)
    (r1 r2 : Request) (n1 n2 : String) (v : Int) (q : Nat)
    (hs : store.Options < w.heap.next) (hq : q < w.heap.next)
    (s1 : Session) (e1 : Option Error) (w1 : World σ) (st1 : SurrealStore)
    (h1 : New E w store r1 n1 = (Outcome.ret (s1, e1), w1, st1))
    (s2 : Session) (e2 : Option Error) (w2 : World σ) (st2 : SurrealStore)
    (h2 : New E w1 st1 r2 n2 = (Outcome.ret (s2, e2), w2, st2))
    (s3 : Session) (e3 : Option Error) (w3 : World σ) (st3 : SurrealStore)
    (h3 : New E { w1 with heap := w1.heap.setMaxAge s1.Options v } st1 r2 n2 =
      (Outcome.ret (s3, e3), w3, st3)) :
    -- the first session: a copy, the store and earlier objects untouched
    (w1.heap.get s1.Options = w.heap.get store.Options ∧
      s1.Options ≠ store.Options ∧
      s1.Options ≠ q ∧
      st1.Options = store.Options ∧
      w1.heap.get store.Options = w.heap.get store.Options ∧
      w1.heap.get q = w.heap.get q) ∧
    -- a second session from the same store
    (w2.heap.get s2.Options = w.heap.get store.Options ∧ s2.Options ≠ s1.Options) ∧
    -- assigning the max-age of the first session after both calls
    ((w2.heap.setMaxAge s1.Options v).get store.Options = w.heap.get store.Options ∧
      (w2.heap.setMaxAge s1.Options v).get s2.Options = w.heap.get store.Options ∧
      (w2.heap.setMaxAge s1.Options v).get q = w.heap.get q) ∧
    -- assigning the max-age of the second session
    ((w2.heap.setMaxAge s2.Options v).get store.Options = w.heap.get store.Options ∧
      (w2.heap.setMaxAge s2.Options v).get s1.Options = w.heap.get store.Options) ∧
    -- assigning the max-age of the first session before the second call
    (w3.heap.get store.Options = w.heap.get store.Options ∧
      w3.heap.get s3.Options = w.heap.get store.Options) ∧
    -- Get, first call for a valid name: the session and the world of New
    (∀ reg : Registry, isCookieNameValid n1 = true → reg.lookup n1 = none →
      Get E w store reg r1 n1 =
        (Outcome.ret (some s1, e1), (n1, s1, e1) :: reg, w1, st1)) ∧
    -- Get, name already in the registry: the session kept there, nothing changes
    (∀ (reg : Registry) (s : Session) (e : Option Error) (w0 : World σ) (st0 : SurrealStore)
        (r : Request) (name : String),
      isCookieNameValid name = true → reg.lookup name = some (s, e) →
      Get E w0 st0 reg r name = (Outcome.ret (some s, e), reg, w0, st0)) ∧
    -- Get, invalid name: no session
    (∀ (reg : Registry) (w0 : World σ) (st0 : SurrealStore) (r : Request) (name : String),
      isCookieNameValid name = false →
      Get E w0 st0 reg r name =
        (Outcome.ret (none, some (Error.invalidName name)), reg, w0, st0)) := by
  obtain ⟨a2, a3, a4, a5, a1⟩ := New_heap E w store r1 n1 hs
  rw [h1] at a2 a3 a4 a5 a1
  obtain ⟨a1, a1n⟩ := a1 s1 e1 rfl
  have hs2 : st1.Options < w1.heap.next := by
    show st1.Options < w1.heap.next
    rw [show w1.heap.next = w.heap.next + 2 from a2, show st1.Options = store.Options from a3]
    omega
  obtain ⟨b2, b3, b4, b5, b1⟩ := New_heap E w1 st1 r2 n2 hs2
  rw [h2] at b2 b3 b4 b5 b1
  obtain ⟨b1, _⟩ := b1 s2 e2 rfl
  have hs3 : st1.Options <
      ({ w1 with heap := w1.heap.setMaxAge s1.Options v } : World σ).heap.next := hs2
  obtain ⟨c2, c3, c4, c5, c1⟩ :=
    New_heap E { w1 with heap := w1.heap.setMaxAge s1.Options v } st1 r2 n2 hs3
  rw [h3] at c2 c3 c4 c5 c1
  obtain ⟨c1, _⟩ := c1 s3 e3 rfl
  have a2' : w1.heap.next = w.heap.next + 2 := a2
  have a3' : st1.Options = store.Options := a3
  have a4' : ∀ q, q < w.heap.next → w1.heap.get q = w.heap.get q := a4
  have a5' : w1.heap.get (w.heap.next + 1) = w.heap.get store.Options := a5
  have b4' : ∀ q, q < w1.heap.next → w2.heap.get q = w1.heap.get q := b4
  have b5' : w2.heap.get (w1.heap.next + 1) = w1.heap.get st1.Options := b5
  have c4' : ∀ q, q < w1.heap.next →
      w3.heap.get q = (w1.heap.setMaxAge s1.Options v).get q := c4
  have c5' : w3.heap.get (w1.heap.next + 1) =
      (w1.heap.setMaxAge s1.Options v).get st1.Options := c5
  have hO : w1.heap.get store.Options = w.heap.get store.Options := a4' _ hs
  have hp1 : w1.heap.get s1.Options = w.heap.get store.Options := by rw [a1]; exact a5'
  have hlt : ∀ x, x < w.heap.next → x < w1.heap.next := by
    intro x hx; rw [a2']; omega
  have hp1lt : s1.Options < w1.heap.next := by rw [a1, a2']; omega
  have hp2 : w2.heap.get s2.Options = w.heap.get store.Options := by
    rw [b1, b5', a3']; exact hO
  have hne12 : s2.Options ≠ s1.Options := by rw [b1, a2', a1]; omega
  have hne1s : s1.Options ≠ store.Options := by rw [a1]; omega
  have hne1q : s1.Options ≠ q := by rw [a1]; omega
  have hne2s : s2.Options ≠ store.Options := by rw [b1, a2']; omega
  refine ⟨⟨hp1, hne1s, hne1q, a3', hO, a4' q hq⟩, ⟨hp2, hne12⟩, ⟨?_, ?_, ?_⟩, ⟨?_, ?_⟩,
    ⟨?_, ?_⟩, ?_, ?_, ?_⟩
  · rw [Heap.get_setMaxAge_of_ne _ _ _ _ (Ne.symm hne1s), b4' _ (hlt _ hs)]; exact hO
  · rw [Heap.get_setMaxAge_of_ne _ _ _ _ hne12]; exact hp2
  · rw [Heap.get_setMaxAge_of_ne _ _ _ _ (Ne.symm hne1q), b4' _ (hlt _ hq)]; exact a4' q hq
  · rw [Heap.get_setMaxAge_of_ne _ _ _ _ (Ne.symm hne2s), b4' _ (hlt _ hs)]; exact hO
  · rw [Heap.get_setMaxAge_of_ne _ _ _ _ (Ne.symm hne12), b4' _ hp1lt]; exact hp1
  · rw [c4' store.Options (hlt _ hs),
      Heap.get_setMaxAge_of_ne _ _ _ _ (Ne.symm hne1s)]
    exact hO
  · rw [c1]
    show w3.heap.get (w1.heap.next + 1) = _
    rw [c5', a3', Heap.get_setMaxAge_of_ne _ _ _ _ (Ne.symm hne1s)]
    exact hO
  · intro reg hv hreg
    have hg := Get_first E w store reg r1 n1 s1 e1 hv hreg a1n (by rw [h1])
    rw [h1] at hg
    exact hg
  · intro reg s e w0 st0 r name hv hreg
    exact Get_cached E w0 st0 reg r name s e hv hreg
  · intro reg w0 st0 r name hv
    exact Get_invalid E w0 st0 reg r name hv

/-- C6 amended, at the store with max-age 900 and a session whose max-age is set to
-1, as in `TestSessionOptionsAreUniquePerSession`: the max-age of the store is still
900, also for the session obtained afterwards. -/
theorem New_options_independent_witness :
    bookStore.Options < (worldOf 900).heap.next ∧
    (((New memDB (worldOf 900) bookStore [] "newsess").2.1.heap.setMaxAge 2 (-1)).get
      bookStore.Options).MaxAge = 900 ∧
    (New memDB
        { (New memDB (worldOf 900) bookStore [] "newsess").2.1 with
          heap := (New memDB (worldOf 900) bookStore [] "newsess").2.1.heap.setMaxAge 2 (-1) }
        (New memDB (worldOf 900) bookStore [] "newsess").2.2 [] "other").2.1.heap.get
        bookStore.Options = (worldOf 900).heap.get bookStore.Options :=
  ⟨by decide, by decide,
   (New_options_independent memDB (worldOf 900) bookStore [] [] "newsess" "other" (-1) 0
      (by decide) (by decide)
      { ID := "", Values := [], Options := 2, IsNew := true, name := "newsess" } none
      (New memDB (worldOf 900) bookStore [] "newsess").2.1
      (New memDB (worldOf 900) bookStore [] "newsess").2.2 rfl
      { ID := "", Values := [], Options := 4, IsNew := true, name := "other" } none
      (New memDB (New memDB (worldOf 900) bookStore [] "newsess").2.1
        (New memDB (worldOf 900) bookStore [] "newsess").2.2 [] "other").2.1
      (New memDB (New memDB (worldOf 900) bookStore [] "newsess").2.1
        (New memDB (worldOf 900) bookStore [] "newsess").2.2 [] "other").2.2 rfl
      { ID := "", Values := [], Options := 4, IsNew := true, name := "other" } none
      (New memDB
        { (New memDB (worldOf 900) bookStore [] "newsess").2.1 with
          heap := (New memDB (worldOf 900) bookStore [] "newsess").2.1.heap.setMaxAge 2 (-1) }
        (New memDB (worldOf 900) bookStore [] "newsess").2.2 [] "other").2.1
      (New memDB
        { (New memDB (worldOf 900) bookStore [] "newsess").2.1 with
          heap := (New memDB (worldOf 900) bookStore [] "newsess").2.1.heap.setMaxAge 2 (-1) }
        (New memDB (worldOf 900) bookStore [] "newsess").2.2 [] "other").2.2 rfl).2.2.2.2.1.1⟩

/-! ## The cleanup worker -/

theorem cleanup_ticks {σ : Type} (E : DBSem σ) (n : Nat) :
    ∀ s : Worker σ, s.phase = Phase.Running →
      (cleanup E s (List.replicate n Event.tick)).phase = Phase.Running ∧
      (cleanup E s (List.replicate n Event.tick)).world.calls =
        s.world.calls ++
          List.replicate n (DBCall.query "DELETE sessions WHERE expires_on < time::now()") ∧
      (cleanup E s (List.replicate n Event.tick)).done = s.done ∧
      (cleanup E s (List.replicate n Event.tick)).tickerStopped = s.tickerStopped := by
  induction n with
  | zero =>
    intro s hs
    simp [cleanup, hs]
  | succ n ih =>
    intro s hs
    have hstep : (cleanupStep E s Event.tick).phase = Phase.Running ∧
        (cleanupStep E s Event.tick).world.calls =
          s.world.calls ++ [DBCall.query "DELETE sessions WHERE expires_on < time::now()"] ∧
        (cleanupStep E s Event.tick).done = s.done ∧
        (cleanupStep E s Event.tick).tickerStopped = s.tickerStopped := by
      simp only [cleanupStep, deleteExpired]
      split <;> exact ⟨hs, rfl, rfl, rfl⟩
    obtain ⟨h1, h2, h3, h4⟩ := ih (cleanupStep E s Event.tick) hstep.1
    simp only [List.replicate_succ, cleanup, hs]
    refine ⟨h1, ?_, ?_, ?_⟩
    · rw [h2, hstep.2.1, List.append_assoc]
      rfl
    · rw [h3, hstep.2.2.1]
    · rw [h4, hstep.2.2.2]

theorem cleanup_append_running {σ : Type} (E : DBSem σ) (evs rest : List Event) :
    ∀ s : Worker σ, (cleanup E s evs).phase = Phase.Running →
      cleanup E s (evs ++ rest) = cleanup E (cleanup E s evs) rest := by
  induction evs with
  | nil => intro s _; rfl
  | cons ev evs ih =>
    intro s h
    cases hp : s.phase with
    | Stopped =>
      simp only [cleanup, hp] at h
      cases h
    | Running =>
      simp only [cleanup, hp, List.cons_append] at h ⊢
      exact ih _ h

theorem cleanup_stopped {σ : Type} (E : DBSem σ) (evs : List Event) (s : Worker σ)
    (hs : s.phase = Phase.Stopped) : cleanup E s evs = s := by
  cases evs with
  | nil => rfl
  | cons ev evs => simp [cleanup, hs]

theorem cleanup_running_of_no_quit {σ : Type} (E : DBSem σ) (evs : List Event) :
    ∀ s : Worker σ, s.phase = Phase.Running → Event.quit ∉ evs →
      (cleanup E s evs).phase = Phase.Running := by
  induction evs with
  | nil => intro s hs _; exact hs
  | cons ev evs ih =>
    intro s hs hq
    simp only [cleanup, hs]
    cases ev with
    | quit => simp at hq
    | tick =>
      apply ih
      · simp only [cleanupStep]
        split <;> exact hs
      · intro hmem
        exact hq (List.mem_cons_of_mem _ hmem)

/-- C9. The sweeper loop never stops on failure. Whatever the database answers to a
delete pass, success or error: a running worker that receives a tick sends exactly one
delete of the expired sessions and is still running, with nothing sent on `done`; so
after any number of ticks it is running and has sent as many delete passes. On a quit
it sends no request, sends exactly one value on `done`, stops its ticker and is
stopped. A worker that is stopped after a sequence of events has received a quit. -/
theorem cleanup_stops_only_on_quit {σ : Type} (E : DBSem σ) (s : Worker σ)
    (hs : s.phase = Phase.Running) :
    -- one tick
    ((cleanupStep E s Event.tick).phase = Phase.Running ∧
      (cleanupStep E s Event.tick).world.calls =
        s.world.calls ++ [DBCall.query "DELETE sessions WHERE expires_on < time::now()"] ∧
      (cleanupStep E s Event.tick).done = s.done) ∧
    -- any number of ticks
    (∀ n : Nat,
      (cleanup E s (List.replicate n Event.tick)).phase = Phase.Running ∧
      (cleanup E s (List.replicate n Event.tick)).world.calls =
        s.world.calls ++
          List.replicate n (DBCall.query "DELETE sessions WHERE expires_on < time::now()") ∧
      (cleanup E s (List.replicate n Event.tick)).done = s.done) ∧
    -- ticks, then a quit, then anything
    (∀ (n : Nat) (rest : List Event),
      (cleanup E s (List.replicate n Event.tick ++ Event.quit :: rest)).phase = Phase.Stopped ∧
      (cleanup E s (List.replicate n Event.tick ++ Event.quit :: rest)).world.calls =
        s.world.calls ++
          List.replicate n (DBCall.query "DELETE sessions WHERE expires_on < time::now()") ∧
      (cleanup E s (List.replicate n Event.tick ++ Event.quit :: rest)).done = s.done + 1 ∧
      (cleanup E s (List.replicate n Event.tick ++ Event.quit :: rest)).tickerStopped = true) ∧
    -- stopped only by a quit
    (∀ evs : List Event, (cleanup E s evs).phase = Phase.Stopped → Event.quit ∈ evs) := by
  refine ⟨?_, ?_, ?_, ?_⟩
  · simp only [cleanupStep, deleteExpired]
    split <;> exact ⟨hs, rfl, rfl⟩
  · intro n
    obtain ⟨h1, h2, h3, _⟩ := cleanup_ticks E n s hs
    exact ⟨h1, h2, h3⟩
  · intro n rest
    obtain ⟨h1, h2, h3, _⟩ := cleanup_ticks E n s hs
    rw [cleanup_append_running E _ _ s h1]
    have hq : cleanup E (cleanup E s (List.replicate n Event.tick)) (Event.quit :: rest) =
        cleanupStep E (cleanup E s (List.replicate n Event.tick)) Event.quit := by
      simp only [cleanup, h1]
      exact cleanup_stopped E rest _ rfl
    rw [hq]
    exact ⟨rfl, h2, by rw [← h3]; rfl, rfl⟩
  · intro evs hstop
    by_contra hq
    have hrun := cleanup_running_of_no_quit E evs s hs hq
    rw [hrun] at hstop
    cases hstop

/-- C9, at a worker started over the unreachable database, where every delete pass
fails: three ticks, three delete passes, and the worker is still running. -/
theorem cleanup_stops_only_on_quit_witness :
    (Cleanup downWorld 0).phase = Phase.Running ∧
    (cleanup downDB (Cleanup downWorld 0)
        (List.replicate 3 Event.tick)).phase = Phase.Running ∧
    (cleanup downDB (Cleanup downWorld 0) (List.replicate 3 Event.tick)).logged =
      List.replicate 3 (Error.store "connection closed") :=
  ⟨rfl,
   ((cleanup_stops_only_on_quit downDB (Cleanup downWorld 0) rfl).2.1 3).1,
   by decide⟩

/-! ## Save followed by New or Get -/

theorem mintID_fields (fresh : String) (session : Session) :
    (mintID fresh session).name = session.name ∧
    (mintID fresh session).Values = session.Values ∧
    (mintID fresh session).Options = session.Options := by
  unfold mintID
  split <;> exact ⟨rfl, rfl, rfl⟩

theorem mintID_of_ne (fresh : String) (session : Session) (h : session.ID ≠ "") :
    mintID fresh session = session := by
  simp [mintID, h]

theorem mintID_ne (fresh : String) (session : Session) (h : fresh ≠ "") :
    (mintID fresh session).ID ≠ "" := by
  unfold mintID
  split
  · exact h
  · assumption

theorem sessionRecord_data (clk : Nat → Time) (m : Int) (session : Session)
    (encoded : String) (rec : SurrealSession)
    (h : sessionRecord clk m session encoded = some rec) : rec.Data = encoded := by
  simp only [sessionRecord] at h
  split at h
  · cases h
  · cases h
    rfl

theorem Save_ok {σ : Type} (E : DBSem σ) (clk : Nat → Time) (fresh : String) (w : World σ)
    (store : SurrealStore) (r : Request) (rw : Response) (session : Session)
    (hge : ¬ (w.heap.get session.Options).MaxAge < 0)
    (hret : (Save E clk fresh w store r rw session).1 = Outcome.ret none) :
    ∃ encoded rec tok,
      EncodeMulti session.name (Payload.values session.Values) store.Codecs =
        Except.ok encoded ∧
      sessionRecord clk (w.heap.get session.Options).MaxAge (mintID fresh session) encoded =
        some rec ∧
      (E.Upsert w.db { Table := "sessions", ID := (mintID fresh session).ID } rec).1 = none ∧
      EncodeMulti session.name (Payload.str (mintID fresh session).ID) store.Codecs =
        Except.ok tok ∧
      Save E clk fresh w store r rw session =
        (Outcome.ret none,
          { w with
            db := (E.Upsert w.db { Table := "sessions", ID := (mintID fresh session).ID } rec).2,
            calls := w.calls ++
              [DBCall.upsert { Table := "sessions", ID := (mintID fresh session).ID } rec] },
          SetCookie rw (NewCookie session.name tok (w.heap.get session.Options)),
          mintID fresh session) := by
  obtain ⟨hn, hv, ho⟩ := mintID_fields fresh session
  rcases henc : EncodeMulti session.name (Payload.values session.Values) store.Codecs with
    e | encoded
  · simp [Save, hge, save, hn, hv, ho, henc] at hret
  · rcases hrec : sessionRecord clk (w.heap.get session.Options).MaxAge (mintID fresh session)
        encoded with _ | rec
    · simp [Save, hge, save, hn, hv, ho, henc, hrec] at hret
    · rcases hup : (E.Upsert w.db { Table := "sessions", ID := (mintID fresh session).ID }
          rec).1 with _ | e
      · rcases htok : EncodeMulti session.name (Payload.str (mintID fresh session).ID)
            store.Codecs with e | tok
        · simp [Save, hge, save, hn, hv, ho, henc, hrec, hup, htok] at hret
        · refine ⟨encoded, rec, tok, ?_, ?_, hup, ?_, ?_⟩
          · rfl
          · exact hrec
          · rfl
          · simp [Save, hge, save, hn, hv, ho, henc, hrec, hup, htok]
      · simp [Save, hge, save, hn, hv, ho, henc, hrec, hup] at hret

theorem Save_then_New {σ : Type} (E : DBSem σ) (hdb : FetchAfterUpsert E)
    (st st2 : SurrealStore) (cs0 : List Codec)
    (hid : RoundTripAt cs0 st2.Codecs) (hval : RoundTripAt st.Codecs st2.Codecs)
    (clk : Nat → Time) (fresh : String) (w : World σ) (r : Request) (rw : Response)
    (session : Session)
    (hge : ¬ (w.heap.get session.Options).MaxAge < 0)
    (w1 : World σ) (rw1 : Response) (s1 : Session)
    (hsave : Save E clk fresh w st r rw session = (Outcome.ret none, w1, rw1, s1))
    (r2 : Request) (c : Cookie) (hc : requestCookie r2 session.name = some c)
    (htok : EncodeMulti session.name (Payload.str s1.ID) cs0 = Except.ok c.Value) :
    (New E w1 st2 r2 session.name).1 =
      Outcome.ret ({ ID := s1.ID, Values := session.Values, Options := w1.heap.next + 1,
                     IsNew := false, name := session.name }, none) := by
  obtain ⟨encoded, rec, tok, henc, hrec, hup, _, heq⟩ :=
    Save_ok E clk fresh w st r rw session hge (by rw [hsave])
  rw [hsave] at heq
  have hw : w1 = _ := congrArg (fun x => x.2.1) heq
  have hs : s1 = mintID fresh session := congrArg (fun x => x.2.2.2) heq
  have hidc : DecodeMulti session.name c.Value asString st2.Codecs = Except.ok s1.ID :=
    (hid session.name c.Value).1 _ htok
  have hsel : (E.Select w1.db (NewRecordID "sessions" s1.ID)).1 = Except.ok (some rec) := by
    rw [hw, hs]
    exact hdb w.db { Table := "sessions", ID := (mintID fresh session).ID } rec hup
  have hdata : DecodeMulti session.name rec.Data asValues st2.Codecs =
      Except.ok session.Values := by
    rw [sessionRecord_data _ _ _ _ _ hrec]
    exact (hval session.name encoded).2 _ henc
  exact (New_of_decoded_cookie E w1 st2 r2 session.name c s1.ID hc hidc).2.2.2.2
    rec session.Values hsel hdata

theorem memDB_fetchAfterUpsert : FetchAfterUpsert memDB := by
  intro db rid rec _
  simp [memDB, List.lookup]

theorem book_roundTrip (p : Payload) (tok : String) (h : bookEncode p = Except.ok tok) :
    bookDecode tok = Except.ok p := by
  unfold bookEncode at h
  split_ifs at h with h1 h2 h3 h4 h5 h6 h7 h8 <;> cases h
  · rw [h1]; rfl
  · rw [h2]; rfl
  · rw [h3]; rfl
  · rw [h4]; rfl
  · rw [h5]; rfl
  · rw [h6]; rfl
  · rw [h7]; rfl
  · rw [h8]; rfl

theorem book_roundTripAt (c1 c2 : Codec) (e1 : c1.Encode = bookCodec.Encode)
    (d2 : c2.Decode = bookCodec.Decode) (hage : 0 ≤ c2.maxAge) : RoundTripAt [c1] [c2] := by
  have hnot : ¬ c2.maxAge < 0 := not_lt.mpr hage
  intro name tok
  constructor
  · intro x hx
    simp only [EncodeMulti, encodeLoop, e1, bookCodec] at hx
    rcases hb : bookEncode (Payload.str x) with e | t
    · rw [hb] at hx
      cases hx
    · rw [hb] at hx
      cases hx
      simp only [DecodeMulti, decodeLoop, d2, bookCodec, if_neg hnot, book_roundTrip _ _ hb,
        asString]
  · intro x hx
    simp only [EncodeMulti, encodeLoop, e1, bookCodec] at hx
    rcases hb : bookEncode (Payload.values x) with e | t
    · rw [hb] at hx
      cases hx
    · rw [hb] at hx
      cases hx
      simp only [DecodeMulti, decodeLoop, d2, bookCodec, if_neg hnot, book_roundTrip _ _ hb,
        asValues]

/-- C7, as stated, fails. First, for `Get`: a session obtained by `Get` on a request
is saved with success under the id "ID1"; the cookie that encodes "ID1" is added to
the request; `Get` on that request returns the session of its registry, with
`IsNew = true`. Second, when the random source fails and the id minted is empty: the
session is saved and read back, its counter is set to 9 and it is saved again, now
under a minted id, and the unchanged cookie reads back the counter 1. -/
theorem Get_roundtrip_counterexample :
    (cached1.1 = Outcome.ret (some newcomer, none) ∧
      cached2.1 = Outcome.ret none ∧
      cached2.2.2.2 =
        { ID := "ID1", Values := [(Val.str "counter", Val.int 1)], Options := 2,
          IsNew := true, name := "s" } ∧
      requestCookie (requestOf "t-id") "s" = some (NewCookie "s" "t-id" Options.zero) ∧
      EncodeMulti "s" (Payload.str "ID1") cached1.2.2.2.Codecs = Except.ok "t-id" ∧
      cached3.1 =
        Outcome.ret (some { ID := "ID1", Values := [(Val.str "counter", Val.int 1)],
                            Options := 2, IsNew := true, name := "s" }, none)) ∧
    (blank1.1 = Outcome.ret none ∧
      blank1.2.2.2.ID = "" ∧
      EncodeMulti "s" (Payload.str "") visit.2.2.Codecs = Except.ok "t-noid" ∧
      blank2.1 =
        Outcome.ret ({ ID := "", Values := [(Val.str "counter", Val.int 1)], Options := 4,
                       IsNew := false, name := "s" }, none) ∧
      blank3.1 = Outcome.ret none ∧
      blank4.1 =
        Outcome.ret ({ ID := "", Values := [(Val.str "counter", Val.int 1)], Options := 6,
                       IsNew := false, name := "s" }, none)) :=
  ⟨⟨by decide, by decide, by decide, by decide, rfl, by decide⟩,
   ⟨by decide, by decide, rfl, by decide, by decide, by decide⟩⟩

/-- C7, amended. Save/New round trip. Assume a database whose select by id returns the
record just upserted under that id, codecs that decode what they encode, with the
age limits they have before and after `New` sets them, and a random source that
yields a key (the id minted for a session without id is not empty). Let a session
with `MaxAge >= 0` and values `v` be saved with success. Then `New` on a request whose
cookie of that name encodes the id returns a nil error and a session with
`IsNew = false`, the same id and `Values = v`. If the values of that session are
changed to `v2` and it is saved again with success, `New` on a request with the
same, unchanged cookie returns the same id and `Values = v2`. `Get` returns the
session of `New` when the name is a valid cookie name that is not yet in the registry
of the request. -/
theorem Save_New_roundtrip {σ : Type} (E : DBSem σ) (hdb : FetchAfterUpsert E)
    (store : SurrealStore) (clk clk2 : Nat → Time) (fresh fresh2 : String) (w : World σ)
    (r r2 : Request) (rw rw2 : Response) (session : Session) (v2 : ValueMap)
    (hage : 0 ≤ (w.heap.get session.Options).MaxAge)
    (w1 : World σ) (rw1 : Response) (s1 : Session)
    (hsave : Save E clk fresh w store r rw session = (Outcome.ret none, w1, rw1, s1))
    (hfresh : fresh ≠ "")
    (c : Cookie) (hc : requestCookie r2 session.name = some c)
    (htok : EncodeMulti session.name (Payload.str s1.ID) store.Codecs = Except.ok c.Value)
    (o2 : Outcome (Session × Option Error)) (w2 : World σ) (store2 : SurrealStore)
    (hnew : New E w1 store r2 session.name = (o2, w2, store2))
    (hrt : RoundTripAt store.Codecs store.Codecs)
    (hrt12 : RoundTripAt store.Codecs store2.Codecs)
    (hrt22 : RoundTripAt store2.Codecs store2.Codecs) :
    ∃ s2, o2 = Outcome.ret (s2, none) ∧
      s2.IsNew = false ∧ s2.ID = s1.ID ∧ s2.Values = session.Values ∧
      (0 ≤ (w2.heap.get s2.Options).MaxAge →
        ∀ (w3 : World σ) (rw3 : Response) (s3 : Session),
          Save E clk2 fresh2 w2 store2 r2 rw2 { s2 with Values := v2 } =
            (Outcome.ret none, w3, rw3, s3) →
          ∃ s4, (New E w3 store2 r2 session.name).1 = Outcome.ret (s4, none) ∧
            s4.IsNew = false ∧ s4.ID = s1.ID ∧ s4.Values = v2 ∧
            (∀ reg : Registry, isCookieNameValid session.name = true →
              reg.lookup session.name = none →
              (Get E w3 store2 reg r2 session.name).1 = Outcome.ret (some s4, none))) ∧
      (∀ reg : Registry, isCookieNameValid session.name = true →
        reg.lookup session.name = none →
        (Get E w1 store reg r2 session.name).1 = Outcome.ret (some s2, none)) := by
  have hge : ¬ (w.heap.get session.Options).MaxAge < 0 := not_lt.mpr hage
  have hid : s1.ID ≠ "" := by
    obtain ⟨_, _, _, _, _, _, _, heq⟩ :=
      Save_ok E clk fresh w store r rw session hge (by rw [hsave])
    rw [hsave] at heq
    have hs : s1 = mintID fresh session := congrArg (fun x => x.2.2.2) heq
    rw [hs]
    exact mintID_ne fresh session hfresh
  have h1 := Save_then_New E hdb store store store.Codecs hrt hrt clk fresh w r rw session
    hge w1 rw1 s1 hsave r2 c hc htok
  rw [hnew] at h1
  have ho2 : o2 = Outcome.ret
      ({ ID := s1.ID, Values := session.Values, Options := w1.heap.next + 1, IsNew := false,
         name := session.name }, none) := h1
  refine ⟨_, ho2, rfl, rfl, rfl, ?_, ?_⟩
  · intro hage2 w3 rw3 s3 hsave2
    have hge2 : ¬ (w2.heap.get (w1.heap.next + 1)).MaxAge < 0 := not_lt.mpr hage2
    have hsx : ∀ sx : Session,
        sx = { ID := s1.ID, Values := v2, Options := w1.heap.next + 1, IsNew := false,
               name := session.name } →
        Save E clk2 fresh2 w2 store2 r2 rw2 sx = (Outcome.ret none, w3, rw3, s3) →
        ∃ s4, (New E w3 store2 r2 session.name).1 = Outcome.ret (s4, none) ∧
          s4.IsNew = false ∧ s4.ID = s1.ID ∧ s4.Values = v2 ∧
          (∀ reg : Registry, isCookieNameValid session.name = true →
            reg.lookup session.name = none →
            (Get E w3 store2 reg r2 session.name).1 = Outcome.ret (some s4, none)) := by
      intro sx hsx hsv
      have hxid : sx.ID = s1.ID := by rw [hsx]
      have hxn : sx.name = session.name := by rw [hsx]
      have hxv : sx.Values = v2 := by rw [hsx]
      have hxo : sx.Options = w1.heap.next + 1 := by rw [hsx]
      have hgx : ¬ (w2.heap.get sx.Options).MaxAge < 0 := by rw [hxo]; exact hge2
      have hs3 : s3.ID = s1.ID := by
        obtain ⟨_, _, _, _, _, _, _, heq⟩ :=
          Save_ok E clk2 fresh2 w2 store2 r2 rw2 sx hgx (by rw [hsv])
        rw [hsv] at heq
        have hs : s3 = mintID fresh2 sx := congrArg (fun x => x.2.2.2) heq
        rw [hs, mintID_of_ne fresh2 sx (by rw [hxid]; exact hid)]
        exact hxid
      have h2 := Save_then_New E hdb store2 store2 store.Codecs hrt12 hrt22 clk2 fresh2 w2 r2
        rw2 sx hgx w3 rw3 s3 hsv r2 c (by rw [hxn]; exact hc)
        (by rw [hxn, hs3]; exact htok)
      rw [hxn, hxv] at h2
      refine ⟨_, h2, rfl, hs3, rfl, ?_⟩
      intro reg hv hreg
      have hg := Get_first E w3 store2 reg r2 session.name
        { ID := s3.ID, Values := v2, Options := w3.heap.next + 1, IsNew := false,
          name := session.name } none hv hreg rfl h2
      rw [hg]
    exact hsx _ rfl hsave2
  · intro reg hv hreg
    have hg := Get_first E w1 store reg r2 session.name
      { ID := s1.ID, Values := session.Values, Options := w1.heap.next + 1, IsNew := false,
        name := session.name } none hv hreg rfl (by rw [hnew, ho2])
    rw [hg]

/-- C7 amended, on the scenario of `TestSurrealStore`: counter 1 is saved and read
back, then counter 9 is saved and read back with the same cookie. -/
theorem Save_New_roundtrip_witness :
    trip1.1 = Outcome.ret none ∧ trip3.1 = Outcome.ret none ∧
    ∃ s2, trip2.1 = Outcome.ret (s2, none) ∧
      s2.Values = [(Val.str "counter", Val.int 1)] ∧
      ∃ s4, trip4.1 = Outcome.ret (s4, none) ∧
        s4.IsNew = false ∧ s4.ID = "ID1" ∧ s4.Values = [(Val.str "counter", Val.int 9)] :=
  have h := Save_New_roundtrip memDB memDB_fetchAfterUpsert visit.2.2
    (fun _ => 1000) (fun _ => 2000) "ID1" "ID2" visit.2.1 [] (requestOf "t-id") [] []
    { newcomer with Values := [(Val.str "counter", Val.int 1)] }
    [(Val.str "counter", Val.int 9)]
    (by decide) trip1.2.1 trip1.2.2.1 trip1.2.2.2 rfl (by decide)
    (NewCookie "s" "t-id" Options.zero) (by decide) rfl
    trip2.1 trip2.2.1 trip2.2.2 rfl
    (book_roundTripAt _ _ rfl rfl (by decide)) (book_roundTripAt _ _ rfl rfl (by decide))
    (book_roundTripAt _ _ rfl rfl (by decide))
  ⟨by decide, by decide,
   match h with
   | ⟨s2, h1, _, _, h4, h5, _⟩ =>
     have hs2 : s2 = tripLoaded := by
       have e : trip2.1 = Outcome.ret (tripLoaded, none) := by decide
       rw [e] at h1
       cases h1
       rfl
     ⟨s2, h1, h4, by
       subst hs2
       obtain ⟨s4, k1, k2, k3, k4, _⟩ :=
         h5 (by decide) trip3.2.1 trip3.2.2.1 trip3.2.2.2 rfl
       exact ⟨s4, k1, k2, k3, k4⟩⟩⟩

/-! ## Saving a session twice -/

theorem Save_expiry {σ : Type} (E : DBSem σ) (now : Time) (fresh : String) (w : World σ)
    (store : SurrealStore) (r : Request) (rw : Response) (session : Session)
    (hge : ¬ (w.heap.get session.Options).MaxAge < 0)
    (w1 : World σ) (rw1 : Response) (s1 : Session)
    (hsave : Save E (fun _ => now) fresh w store r rw session = (Outcome.ret none, w1, rw1, s1)) :
    ∃ rec, w1.calls = w.calls ++ [DBCall.upsert { Table := "sessions", ID := s1.ID } rec] ∧
      (session.Values.lookup (Val.str "expires_on") = none →
        rec.ExpiresOn = timeAdd now (secondsToDuration (w.heap.get session.Options).MaxAge)) ∧
      (∀ p, session.Values.lookup (Val.str "expires_on") = some (Val.time p) →
        rec.ExpiresOn =
          max p (timeAdd now (secondsToDuration (w.heap.get session.Options).MaxAge))) ∧
      s1.Values = session.Values ∧ s1.Options = session.Options ∧
      s1.name = session.name ∧ w1.heap = w.heap := by
  obtain ⟨encoded, rec, tok, _, hrec, _, _, heq⟩ :=
    Save_ok E (fun _ => now) fresh w store r rw session hge (by rw [hsave])
  obtain ⟨hn, hv, ho⟩ := mintID_fields fresh session
  rw [hsave] at heq
  have hw : w1 = _ := congrArg (fun x => x.2.1) heq
  have hs : s1 = mintID fresh session := congrArg (fun x => x.2.2.2) heq
  refine ⟨rec, ?_, ?_, ?_, ?_, ?_, ?_, ?_⟩
  · rw [hw, hs]
  · intro hno
    obtain ⟨rec2, h2, h3⟩ := sessionRecord_absent now (w.heap.get session.Options).MaxAge
      (mintID fresh session) encoded (mapIndex_of_lookup_none _ _ (by rw [hv]; exact hno))
    rw [hrec] at h2
    cases h2
    exact h3
  · intro p hp
    obtain ⟨rec2, h2, h3⟩ := sessionRecord_prior now (w.heap.get session.Options).MaxAge
      (mintID fresh session) encoded p (mapIndex_of_lookup_some _ _ _ (by rw [hv]; exact hp))
    rw [hrec] at h2
    cases h2
    exact h3
  · rw [hs]; exact hv
  · rw [hs]; exact ho
  · rw [hs]; exact hn
  · rw [hw]

theorem timeAdd_seconds (t : Time) (m : Int) (h0 : 0 ≤ m) (h1 : m ≤ 9223372036) :
    timeAdd t (secondsToDuration m) = t + 1000000000 * m := by
  rw [secondsToDuration_of_range m (by omega) h1]
  rfl

/-- C2, as stated, fails. A session obtained from a store of max-age 3600 s is saved
at time 0: the record expires at 3600 s. Its max-age is set to 60 s and it is saved
again at 1 s: the second record expires at 61 s, not at 3600 s. The same happens when
the second session is the one `New` loads from the record of the first save. -/
theorem resave_counterexample :
    visit.1 = Outcome.ret (newcomer, none) ∧
    resave1.1 = Outcome.ret none ∧ resave2.1 = Outcome.ret none ∧
    (upserts resave2.2.1.calls).map (fun e => e.2.ExpiresOn) =
      [3600000000000, 61000000000] ∧
    resaveLoad.1 = Outcome.ret (resaveLoaded, none) ∧ resave3.1 = Outcome.ret none ∧
    (upserts resave3.2.1.calls).map (fun e => e.2.ExpiresOn) =
      [3600000000000, 61000000000] := by
  decide

/-- C2, amended. The expiry that a save may not shorten is the one carried in
`session.Values["expires_on"]`, which neither `Save` nor `load` writes. Let `a` and
`b` be max-ages between 0 and 9223372036 s, and let a session without that entry be
saved with success at `t0` with max-age `a`: the record expires at `t0` plus `a`
seconds. When the same in-memory session is saved again at `t1` with max-age `b`,
the second record expires at `t1` plus `b` seconds; it expires at `t0` plus `a`
seconds, the expiry of the first record, when the caller has stored that timestamp
under "expires_on" and it is not earlier than `t1` plus `b` seconds. When the second
session is the one `New` loads from the first record (codecs that decode what they
encode, a database that returns what was upserted), it is not new and the second
record expires at `t1` plus `b` seconds. -/
theorem resave_expiry {σ : Type} (E : DBSem σ) (hdb : FetchAfterUpsert E)
    (store : SurrealStore) (hrt : RoundTripAt store.Codecs store.Codecs) (t0 t1 : Time)
    (fresh fresh2 : String) (w : World σ) (r r2 : Request) (rw rw2 : Response)
    (session : Session) (a b : Int)
    (ha : (w.heap.get session.Options).MaxAge = a)
    (ha0 : 0 ≤ a) (ha1 : a ≤ 9223372036) (hb0 : 0 ≤ b) (hb1 : b ≤ 9223372036)
    (hno : session.Values.lookup (Val.str "expires_on") = none)
    (w1 : World σ) (rw1 : Response) (s1 : Session)
    (hsave : Save E (fun _ => t0) fresh w store r rw session =
      (Outcome.ret none, w1, rw1, s1)) :
    -- the first record
    (∃ rec1, w1.calls = w.calls ++ [DBCall.upsert { Table := "sessions", ID := s1.ID } rec1] ∧
      rec1.ExpiresOn = t0 + 1000000000 * a) ∧
    -- the same session in memory, saved again
    (∀ (w2 : World σ) (rw3 : Response) (s3 : Session),
      Save E (fun _ => t1) fresh2 { w1 with heap := w1.heap.setMaxAge s1.Options b } store r2
          rw2 s1 = (Outcome.ret none, w2, rw3, s3) →
      ∃ rec2, w2.calls = w1.calls ++ [DBCall.upsert { Table := "sessions", ID := s3.ID } rec2] ∧
        rec2.ExpiresOn = t1 + 1000000000 * b) ∧
    -- the same session, the first expiry stored under "expires_on" by the caller
    (t1 + 1000000000 * b ≤ t0 + 1000000000 * a →
      ∀ (w2 : World σ) (rw3 : Response) (s3 : Session),
      Save E (fun _ => t1) fresh2 { w1 with heap := w1.heap.setMaxAge s1.Options b } store r2
          rw2
          { s1 with Values :=
              (Val.str "expires_on", Val.time (t0 + 1000000000 * a)) :: s1.Values } =
        (Outcome.ret none, w2, rw3, s3) →
      ∃ rec2, w2.calls = w1.calls ++ [DBCall.upsert { Table := "sessions", ID := s3.ID } rec2] ∧
        rec2.ExpiresOn = t0 + 1000000000 * a) ∧
    -- the session loaded by New from the first record
    (∀ c : Cookie, requestCookie r2 session.name = some c →
      EncodeMulti session.name (Payload.str s1.ID) store.Codecs = Except.ok c.Value →
      ∃ s2, (New E w1 store r2 session.name).1 = Outcome.ret (s2, none) ∧
        s2.IsNew = false ∧ s2.ID = s1.ID ∧
        ∀ (w3 : World σ) (rw3 : Response) (s3 : Session),
          Save E (fun _ => t1) fresh2
              { (New E w1 store r2 session.name).2.1 with
                heap := (New E w1 store r2 session.name).2.1.heap.setMaxAge s2.Options b }
              (New E w1 store r2 session.name).2.2 r2 rw2 s2 =
            (Outcome.ret none, w3, rw3, s3) →
          ∃ rec2,
            w3.calls = (New E w1 store r2 session.name).2.1.calls ++
              [DBCall.upsert { Table := "sessions", ID := s3.ID } rec2] ∧
            rec2.ExpiresOn = t1 + 1000000000 * b) := by
  have hge : ¬ (w.heap.get session.Options).MaxAge < 0 := by rw [ha]; exact not_lt.mpr ha0
  obtain ⟨rec1, hc1, hx1, _, hv1, _, _, _⟩ :=
    Save_expiry E t0 fresh w store r rw session hge w1 rw1 s1 hsave
  have hno1 : s1.Values.lookup (Val.str "expires_on") = none := by rw [hv1]; exact hno
  have hgeb : ∀ (h : Heap) (p : Nat), ¬ ((h.setMaxAge p b).get p).MaxAge < 0 := by
    intro h p
    rw [Heap.get_setMaxAge_same]
    exact not_lt.mpr hb0
  have hta := timeAdd_seconds t0 a ha0 ha1
  have htb := timeAdd_seconds t1 b hb0 hb1
  refine ⟨⟨rec1, hc1, by rw [hx1 hno, ha, hta]⟩, ?_, ?_, ?_⟩
  · intro w2 rw3 s3 h2
    obtain ⟨rec2, hc2, hx2, _⟩ := Save_expiry E t1 fresh2
      { w1 with heap := w1.heap.setMaxAge s1.Options b } store r2 rw2 s1
      (hgeb _ _) w2 rw3 s3 h2
    refine ⟨rec2, hc2, ?_⟩
    rw [hx2 hno1]
    show timeAdd t1 (secondsToDuration ((w1.heap.setMaxAge s1.Options b).get s1.Options).MaxAge) = _
    rw [Heap.get_setMaxAge_same, htb]
  · intro hle w2 rw3 s3 h2
    obtain ⟨rec2, hc2, _, hx2, _⟩ := Save_expiry E t1 fresh2
      { w1 with heap := w1.heap.setMaxAge s1.Options b } store r2 rw2
      { s1 with Values :=
          (Val.str "expires_on", Val.time (t0 + 1000000000 * a)) :: s1.Values }
      (hgeb _ _) w2 rw3 s3 h2
    refine ⟨rec2, hc2, ?_⟩
    rw [hx2 (t0 + 1000000000 * a) (by simp [List.lookup])]
    show max _ (timeAdd t1
      (secondsToDuration ((w1.heap.setMaxAge s1.Options b).get s1.Options).MaxAge)) = _
    rw [Heap.get_setMaxAge_same, htb]
    exact max_eq_left hle
  · intro c hc htok
    have h1 := Save_then_New E hdb store store store.Codecs hrt hrt (fun _ => t0) fresh w r rw
      session hge w1 rw1 s1 hsave r2 c hc htok
    refine ⟨_, h1, rfl, rfl, ?_⟩
    intro w3 rw3 s3 h2
    obtain ⟨rec2, hc2, hx2, _⟩ := Save_expiry E t1 fresh2 _ _ r2 rw2 _ (hgeb _ _) w3 rw3 s3 h2
    refine ⟨rec2, hc2, ?_⟩
    rw [hx2 hno]
    show timeAdd t1 (secondsToDuration
      (((New E w1 store r2 session.name).2.1.heap.setMaxAge (w1.heap.next + 1) b).get
        (w1.heap.next + 1)).MaxAge) = _
    rw [Heap.get_setMaxAge_same, htb]

/-- C2 amended, on the resave scenario: after a first save at time 0 with max-age
3600 s, the same session saved at 1 s with max-age 60 s expires at 61 s. -/
theorem resave_expiry_witness :
    resave1.1 = Outcome.ret none ∧ resave2.1 = Outcome.ret none ∧
    ∃ rec2, resave2.2.1.calls =
        resave1.2.1.calls ++
          [DBCall.upsert { Table := "sessions", ID := resave2.2.2.2.ID } rec2] ∧
      rec2.ExpiresOn = 1000000000 + 1000000000 * 60 :=
  ⟨by decide, by decide,
   (resave_expiry memDB memDB_fetchAfterUpsert visit.2.2
      (book_roundTripAt _ _ rfl rfl (by decide))
      0 1000000000 "ID1" "ID2" visit.2.1 [] [] [] [] newcomer 3600 60
      (by decide) (by decide) (by decide) (by decide) (by decide) (by decide)
      resave1.2.1 resave1.2.2.1 resave1.2.2.2 rfl).2.1
      resave2.2.1 resave2.2.2.1 resave2.2.2.2 rfl⟩


end Surrealstore
